import Mathlib

/-!
Verification development for the NFL_Chatbot repository.

The Python sources (`utils.py`, `api_client.py`, `chatbot.py`, `NFLChatBot.py`,
`app.py`) are shallowly embedded below.  Python strings are modelled as `List
Char` (`PyStr`), Python dicts with insertion order as association lists with
in-place overwrite, numeric JSON values as exact rationals (floating point is
modelled as exact decimal arithmetic: none of the verified claims depends on
binary rounding), and network collaborators (`requests.get`, the ESPN/Sleeper
feeds, `streamlit` session state) as explicit parameters.  Where a file defines
two diverging copies of a function (`api_client.py` vs `NFLChatBot.py`), both
copies are embedded, with an `nb_` prefix for the `NFLChatBot.py` copy.
-/

/-- Python strings, modelled positionally as lists of characters. -/
abbrev PyStr := List Char

/-- Coerce a Lean string literal into the `PyStr` model. -/
def pystr (s : String) : PyStr := s.toList

/-- ASCII lowercasing of one character, as Python `str.lower` does on ASCII. -/
def pyLowerChar (c : Char) : Char :=
  if 'A' ≤ c ∧ c ≤ 'Z' then Char.ofNat (c.toNat + 32) else c

/-- ASCII uppercasing of one character, as Python `str.upper` does on ASCII. -/
def pyUpperChar (c : Char) : Char :=
  if 'a' ≤ c ∧ c ≤ 'z' then Char.ofNat (c.toNat - 32) else c

/-- Python `str.lower()`. -/
def pyLower (s : PyStr) : PyStr := s.map pyLowerChar

/-- Python `str.upper()`. -/
def pyUpper (s : PyStr) : PyStr := s.map pyUpperChar

/-- Whitespace as recognised by Python `str.strip`/`str.split`/regex `\s`. -/
def pyIsSpace (c : Char) : Bool :=
  c = ' ' ∨ c = '\t' ∨ c = '\n' ∨ c = '\r' ∨ c = '\x0c' ∨ c = '\x0b'

/-- Python `str.strip()`: drop leading and trailing whitespace. -/
def pyStrip (s : PyStr) : PyStr :=
  ((s.dropWhile pyIsSpace).reverse.dropWhile pyIsSpace).reverse

/-- Python `needle in hay` on strings: contiguous-substring test. -/
def pyContains (needle hay : PyStr) : Bool := decide (needle <:+: hay)

/-- Worker for `pySplitWs`: `cur` holds the current token reversed. -/
def pySplitWsGo : PyStr → PyStr → List PyStr
  | [], cur => if cur = [] then [] else [cur.reverse]
  | c :: rest, cur =>
    if pyIsSpace c then
      if cur = [] then pySplitWsGo rest [] else cur.reverse :: pySplitWsGo rest []
    else pySplitWsGo rest (c :: cur)

/-- Python `str.split()` with no separator: split on runs of whitespace,
never producing empty tokens. -/
def pySplitWs (s : PyStr) : List PyStr := pySplitWsGo s []

/-- Python `" ".join(parts)` and friends: interleave a separator. -/
def pyJoin (sep : PyStr) (parts : List PyStr) : PyStr :=
  match parts with
  | [] => []
  | [p] => p
  | p :: rest => p ++ sep ++ pyJoin sep rest

/-- Worker for `pyReplace`, structurally recursive on a fuel bounded by the
string length; replaces left-to-right, non-overlapping, as Python
`str.replace(old, new)` does (for non-empty `old`, the only case the sources
use). -/
def pyReplaceGo (pat rep : PyStr) : ℕ → PyStr → PyStr
  | 0, s => s
  | _ + 1, [] => []
  | fuel + 1, c :: rest =>
    if pat ≠ [] ∧ pat.isPrefixOf (c :: rest) then
      rep ++ pyReplaceGo pat rep fuel ((c :: rest).drop pat.length)
    else
      c :: pyReplaceGo pat rep fuel rest

/-- Python `s.replace(old, new)`. -/
def pyReplace (s pat rep : PyStr) : PyStr := pyReplaceGo pat rep s.length s

/-- Python dynamic values as they occur in the JSON payloads the sources
traverse: `None`, ints, floats (modelled as exact rationals) and strings. -/
inductive PyVal where
  | none
  | int (n : ℤ)
  | rat (q : ℚ)
  | str (s : PyStr)
deriving DecidableEq, Inhabited

/-- Python truthiness of a `PyVal` (`None`, `0`, `0.0` and `""` are falsy). -/
def pyTruthy : PyVal → Bool
  | .none => false
  | .int n => n ≠ 0
  | .rat q => q ≠ 0
  | .str s => s ≠ []

/-- Python `a or b` on dynamic values. -/
def pyOrV (a b : PyVal) : PyVal := if pyTruthy a then a else b

/-- Python `a or b` where `a` is an optional string (`None`-able) and the
result is used as a string. -/
def pyOrS (a : Option PyStr) (b : PyStr) : PyStr :=
  match a with
  | Option.none => b
  | some s => if s = [] then b else s

/-- Worker for `natDigits`, structurally recursive on a fuel bounded by the
number itself. -/
def natDigitsGo : ℕ → ℕ → PyStr
  | 0, n => [Char.ofNat (48 + n)]
  | fuel + 1, n =>
    if n < 10 then [Char.ofNat (48 + n)]
    else natDigitsGo fuel (n / 10) ++ [Char.ofNat (48 + n % 10)]

/-- Decimal digits of a natural number. -/
def natDigits (n : ℕ) : PyStr := natDigitsGo n n

/-- Python `str(...)` of an integer. -/
def intRepr (n : ℤ) : PyStr :=
  if n < 0 then '-' :: natDigits n.natAbs else natDigits n.natAbs

/-- Left-pad a digit string with zeros to the given width. -/
def padZeros (w : ℕ) (s : PyStr) : PyStr :=
  List.replicate (w - s.length) '0' ++ s

/-- Smallest number of decimal places (searched up to 12) that writes the
rational exactly; the feeds only carry decimally-written numbers, for which
this models Python float `repr` faithfully. -/
def decPlaces (q : ℚ) : ℕ :=
  ((List.range 13).filter fun k => q.den ∣ 10 ^ k).headD 0

/-- Python `repr`/`str` of a float that was read from a decimal literal:
`30.1` prints as "30.1", integral values print with a trailing ".0". -/
def ratRepr (q : ℚ) : PyStr :=
  let k := decPlaces q
  let sign : PyStr := if q.num < 0 then ['-'] else []
  let scaled : ℕ := q.num.natAbs * (10 ^ k / q.den)
  if k = 0 then sign ++ natDigits scaled ++ pystr ".0"
  else
    sign ++ natDigits (scaled / 10 ^ k) ++ ['.'] ++
      padZeros k (natDigits (scaled % 10 ^ k))

/-- Python `str(...)` of a dynamic value, as an f-string interpolates it. -/
def pyRepr : PyVal → PyStr
  | .none => pystr "None"
  | .int n => intRepr n
  | .rat q => ratRepr q
  | .str s => s

/-- Python `float(...)` of a numeric `PyVal`.  (On `None` or a non-numeric
string Python would raise; the sources only reach this on numeric feed
values, and the model returns `0` there.) -/
def pyFloat : PyVal → ℚ
  | .int n => (n : ℚ)
  | .rat q => q
  | _ => 0

/-- Python `int(...)` of a numeric `PyVal`: truncation toward zero. -/
def pyInt : PyVal → ℤ
  | .int n => n
  | .rat q => if 0 ≤ q then ⌊q⌋ else ⌈q⌉
  | _ => 0

/-- Python format-spec .3f formatting: three decimal places, rounding to
nearest (computed as `⌊1000q + 1/2⌋` on the numerator/denominator so that it
evaluates in the kernel). -/
def fmt3 (q : ℚ) : PyStr :=
  let scaled : ℤ := Int.fdiv (2000 * q.num + q.den) (2 * q.den)
  let sign : PyStr := if scaled < 0 then ['-'] else []
  sign ++ natDigits (scaled.natAbs / 1000) ++ ['.'] ++
    padZeros 3 (natDigits (scaled.natAbs % 1000))

/-- Python `str.title()`: uppercase every alphabetic character that follows a
non-alphabetic one, lowercase the rest. -/
def pyTitleGo : Bool → PyStr → PyStr
  | _, [] => []
  | prevAlpha, c :: rest =>
    let isAlpha := ('a' ≤ c ∧ c ≤ 'z') ∨ ('A' ≤ c ∧ c ≤ 'Z')
    let c' := if isAlpha then (if prevAlpha then pyLowerChar c else pyUpperChar c) else c
    c' :: pyTitleGo (decide isAlpha) rest

/-- Python `str.title()`. -/
def pyTitle (s : PyStr) : PyStr := pyTitleGo false s

/-- Model of `re.sub(r"[^a-z0-9\s]", " ", text)`: every character outside
lowercase ASCII letters, digits and whitespace becomes a space. -/
def keepAlnumSpace (s : PyStr) : PyStr :=
  s.map fun c =>
    if ('a' ≤ c ∧ c ≤ 'z') ∨ ('0' ≤ c ∧ c ≤ '9') ∨ pyIsSpace c then c else ' '

/-- Model of `re.sub(r"\s+", " ", text).strip()`: collapse whitespace runs to
single spaces and strip the ends, i.e. rejoin the whitespace-split tokens. -/
def collapseWs (s : PyStr) : PyStr := pyJoin [' '] (pySplitWs s)

/-! ## Player directory (`api_client.py` lines 53–68, 152–183) -/

/-- A normalized player record as `_ensure_player_cache` stores it. -/
structure PlayerMeta where
  id : PyStr
  first_name : PyStr
  last_name : PyStr
  full_name : PyStr
  position : PyStr
  team : PyStr
  age : PyVal
  college : PyStr
  years_exp : PyVal
deriving DecidableEq, Inhabited

/-- A raw Sleeper feed record, with exactly the fields the sources read
(an absent key and a `null` value are both modelled as `Option.none`). -/
structure RawPlayer where
  first_name : Option PyStr
  last_name : Option PyStr
  full_name : Option PyStr
  position : Option PyStr
  team : Option PyStr
  age : PyVal
  college : Option PyStr
  years_exp : PyVal
  experience : PyVal
deriving DecidableEq

/-- The normalization `_ensure_player_cache` applies to one feed record. -/
def mkPlayerMeta (pid : PyStr) (rec : RawPlayer) : PlayerMeta :=
  let first := rec.first_name.getD []
  let last := rec.last_name.getD []
  { id := pid
    first_name := first
    last_name := last
    full_name := pyOrS rec.full_name (pyStrip (first ++ [' '] ++ last))
    position := pyUpper (rec.position.getD [])
    team := rec.team.getD []
    age := rec.age
    college := rec.college.getD []
    years_exp := pyOrV rec.years_exp (pyOrV rec.experience (.str (pystr "N/A"))) }

/-- Insertion into a Python dict modelled as an insertion-ordered association
list: an existing key is overwritten in place, a new key is appended. -/
def dictInsert {α : Type} (d : List (PyStr × α)) (k : PyStr) (v : α) :
    List (PyStr × α) :=
  if d.any (fun kv => kv.1 = k) then
    d.map (fun kv => if kv.1 = k then (k, v) else kv)
  else d ++ [(k, v)]

/-- Python `d.get(k)` on the association-list dict model. -/
def dictGet {α : Type} (d : List (PyStr × α)) (k : PyStr) : Option α :=
  (d.find? (fun kv => kv.1 = k)).map (·.2)

/-- `api_client._ensure_player_cache` (lines 155–183; the `NFLChatBot.py` copy
is identical): build the player cache from the Sleeper feed, keyed by id and,
when the full name is non-empty, also by lowercased full name — a name
collision silently overwrites the name key.  The TTL bookkeeping and the
`__error` guard around the network fetch are not modelled; the decoded feed is
a parameter. -/
def ensure_player_cache (feed : List (PyStr × RawPlayer)) :
    List (PyStr × PlayerMeta) :=
  feed.foldl
    (fun cache pr =>
      let meta := mkPlayerMeta pr.1 pr.2
      let cache := dictInsert cache pr.1 meta
      if meta.full_name ≠ [] then dictInsert cache (pyLower meta.full_name) meta
      else cache)
    []

/-! ## Query-normalizer helpers (`api_client.py` lines 53–61, 828–916) -/

/-- `api_client.POSITIONS` (= `NFLChatBot.POSITIONS`). -/
def POSITIONS : List PyStr :=
  [pystr "QB", pystr "RB", pystr "WR", pystr "TE", pystr "K", pystr "P",
   pystr "DE", pystr "DT", pystr "LB", pystr "CB", pystr "S", pystr "OL",
   pystr "G", pystr "T", pystr "C"]

/-- `api_client.COMMON_TEAM_NAMES` (= `NFLChatBot.COMMON_TEAM_NAMES`). -/
def COMMON_TEAM_NAMES : List PyStr :=
  [pystr "giants", pystr "cowboys", pystr "eagles", pystr "commanders",
   pystr "49ers", pystr "seahawks", pystr "rams", pystr "cardinals",
   pystr "packers", pystr "bears", pystr "lions", pystr "vikings",
   pystr "saints", pystr "falcons", pystr "buccaneers", pystr "panthers",
   pystr "chiefs", pystr "broncos", pystr "raiders", pystr "chargers",
   pystr "bills", pystr "patriots", pystr "dolphins", pystr "jets",
   pystr "ravens", pystr "bengals", pystr "steelers", pystr "browns",
   pystr "colts", pystr "titans", pystr "jaguars", pystr "texans"]

/-- `api_client._normalize_player_query` (lines 830–838): lowercase, strip,
keep `[a-z0-9 ]`, collapse whitespace, remove the filler phrases by plain
substring replacement, collapse again. -/
def normalize_player_query (q0 : PyStr) : PyStr :=
  let q := pyStrip (pyLower q0)
  let q := keepAlnumSpace q
  let q := collapseWs q
  let q :=
    [pystr "who is", pystr "tell me about", pystr "player", pystr "fantasy",
     pystr "stats", pystr "for"].foldl (fun acc w => pyReplace acc w [' ']) q
  collapseWs q

/-- `api_client._detect_position_and_strip` (lines 840–850; the
`NFLChatBot.py` copy is identical): scan the tokens left to right, extract the
last token equal (case-insensitively) to a position abbreviation, keep the
rest. -/
def detect_position_and_strip (query : PyStr) : Option PyStr × PyStr :=
  let step :=
    (pySplitWs query).foldl
      (fun (acc : Option PyStr × List PyStr) w =>
        if POSITIONS.contains (pyUpper w) then (some (pyUpper w), acc.2)
        else (acc.1, acc.2 ++ [w]))
      (Option.none, [])
  (step.1, pyJoin [' '] step.2)

/-- `api_client.detect_team_from_query` (lines 854–886).  After the
`COMMON_TEAM_NAMES` scan, the source iterates `globals().get("_team_cache")`;
the module only defines `_TEAM_CACHE` (uppercase), so that lookup yields
`None`, the scan runs over an empty dict and never produces a team.  Only the
common-name scan (first match wins) is effective. -/
def detect_team_from_query (query : PyStr) : Option PyStr :=
  COMMON_TEAM_NAMES.find? (fun t => pyContains t query)

/-- `NFLChatBot._detect_team_from_query` (lines 135–138): the common-name scan
only. -/
def nb_detect_team_from_query (query : PyStr) : Option PyStr :=
  COMMON_TEAM_NAMES.find? (fun t => pyContains t query)

/-- `NFLChatBot._normalize_query` (lines 111–125): like
`normalize_player_query` but with the longer filler list, replaced in the
source order. -/
def nb_normalize_query (q0 : PyStr) : PyStr :=
  let q := pyStrip (pyLower q0)
  let q := keepAlnumSpace q
  let q := collapseWs q
  let q :=
    [pystr "who is", pystr "tell me about", pystr "show me", pystr "give me",
     pystr "player", pystr "on the", pystr "in the", pystr "from",
     pystr "team", pystr "the", pystr "for", pystr "fantasy", pystr "stats",
     pystr "ppr", pystr "pts", pystr "qb for", pystr "wr for", pystr "rb for",
     pystr "te for", pystr "k for", pystr "of the", pystr "on team",
     pystr "the team", pystr "play for"].foldl
      (fun acc w => pyReplace acc w [' ']) q
  collapseWs q

/-- `utils.clean_query` (lines 95–99): lowercase, keep `[a-z0-9 ]`, collapse
whitespace and strip. -/
def clean_query (text : PyStr) : PyStr :=
  collapseWs (keepAlnumSpace (pyLower text))

/-! ## Player resolver (`api_client.py` lines 888–1018) -/

/-- Modelled from the spec: `utils.is_fuzzy_match` is imported by
`api_client.py` but its definition is missing from the sources.  Per the spec
it is "an approximate string-similarity comparison between the joined token
string and each candidate full name, keeping matches above a similarity
threshold (≈80%)".  It is modelled as an abstract predicate
`query → candidate full name → threshold → Bool`; every theorem below that
involves it holds for an arbitrary such predicate. -/
def FuzzyPredicate : Type := PyStr → PyStr → ℕ → Bool

/-- The result of `api_client.get_player_profile_smart`: either a string or
the selection-required dict carrying the matched records. -/
inductive ProfileResult where
  | text (s : PyStr)
  | selectionRequired (found : List PlayerMeta)
deriving DecidableEq, Inhabited

/-- Pass 1 of `api_client.get_player_profile_smart` (lines 936–957): iterate
the cache in insertion order, skip falsy or already-seen ids, keep records
whose lowercased full name contains every token as a substring.  Returns the
matches together with the final `seen_ids` (an id is added only when its
record matches, as in the source). -/
def smartPass1 (toks : List PyStr) :
    List (PyStr × PlayerMeta) → List PyStr → List PlayerMeta × List PyStr
  | [], seen => ([], seen)
  | (_, m) :: rest, seen =>
    if m.id = [] ∨ m.id ∈ seen then smartPass1 toks rest seen
    else if toks.all (fun t => pyContains t (pyLower m.full_name)) then
      let r := smartPass1 toks rest (m.id :: seen)
      (m :: r.1, r.2)
    else smartPass1 toks rest seen

/-- Pass 2 (fuzzy fallback) of `api_client.get_player_profile_smart` (lines
959–984).  The `except (ImportError, NameError)` fallback inside the loop is
dead when the module imported at all (its module-level
`from utils import ... is_fuzzy_match` must already have succeeded), so only
the `is_fuzzy_match(q, full, threshold=80)` branch is modelled. -/
def smartPass2 (fuzzy : FuzzyPredicate) (q : PyStr) :
    List (PyStr × PlayerMeta) → List PyStr → List PlayerMeta
  | [], _ => []
  | (_, m) :: rest, seen =>
    if m.id = [] ∨ m.id ∈ seen then smartPass2 fuzzy q rest seen
    else if fuzzy q (pyLower m.full_name) 80 then
      m :: smartPass2 fuzzy q rest (m.id :: seen)
    else smartPass2 fuzzy q rest seen

/-- The single-result detailed profile string of
`api_client.get_player_profile_smart` (lines 999–1018).  The `profile` dict
keys are all present, so each `p.get(key, "N/A")` returns the stored value. -/
def singleProfileText (p : PlayerMeta) : PyStr :=
  let full_name := pyTitle (pyOrS (some p.full_name) (pystr "Unknown"))
  pystr "**Name:** " ++ full_name ++ pystr "\n" ++
  pystr "- **Age:** " ++ pyRepr p.age ++ pystr "\n" ++
  pystr "- **Position:** " ++ pyUpper p.position ++ pystr "\n" ++
  pystr "- **Team:** " ++ p.team ++ pystr "\n" ++
  pystr "- **College:** " ++ p.college ++ pystr "\n" ++
  pystr "- **Years in NFL:** " ++ pyRepr p.years_exp

/-- The token list `get_player_profile_smart` derives from the user input
(lines 930–931): normalize, split, keep non-empty tokens. -/
def smart_tokens (user_input : PyStr) : List PyStr :=
  (pySplitWs (normalize_player_query user_input)).filter (· ≠ [])

/-- `api_client.get_player_profile_smart` (lines 919–1018).  The player cache
(a module-level global populated by `_ensure_player_cache`) and the missing
`is_fuzzy_match` are parameters. -/
def get_player_profile_smart (fuzzy : FuzzyPredicate)
    (player_cache : List (PyStr × PlayerMeta)) (user_input : PyStr) :
    ProfileResult :=
  if user_input = [] ∨ pyStrip user_input = [] then
    .text (pystr "Please provide a player name.")
  else
    let q := normalize_player_query user_input
    let tokens := smart_tokens user_input
    if tokens = [] then .text (pystr "Please include the player\x27s name.")
    else
      let p1 := smartPass1 tokens player_cache []
      let found := if p1.1 = [] then smartPass2 fuzzy q player_cache p1.2 else p1.1
      if found = [] then
        .text (pystr "Player \x27" ++ user_input ++ pystr "\x27 not found.")
      else if found.length > 1 then .selectionRequired (found.take 5)
      else .text (singleProfileText (found.headD default))

/-! ## `NFLChatBot.py` resolver copy (lines 140–149, 562–616) -/

/-- `NFLChatBot._player_matches_name` (lines 140–144). -/
def nb_player_matches_name (info : PlayerMeta) (name_tokens : List PyStr) :
    Bool :=
  let first := pyStrip (pyLower info.first_name)
  let last := pyStrip (pyLower info.last_name)
  let full := pyStrip (pyLower (pyOrS (some info.full_name) (first ++ [' '] ++ last)))
  if full = [] then false
  else name_tokens.all (fun tok => pyContains tok full)

/-- `NFLChatBot._player_matches_team` (lines 146–149). -/
def nb_player_matches_team (info : PlayerMeta) (team_filter : PyStr) : Bool :=
  if team_filter = [] then true
  else pyContains team_filter (pyLower info.team)

/-- The per-record profile fields `NFLChatBot.get_player_profile_smart`
computes (lines 590–598); the `save_player_profile` append to the
audit-only pandas log is a side effect no claim concerns and is not
modelled. -/
structure NbProfile where
  name : PyStr
  age : PyVal
  position : PyStr
  team : PyStr
  college : PyStr
  years : PyVal
deriving DecidableEq

/-- Field computation of `NFLChatBot.get_player_profile_smart` lines 591–596. -/
def nbProfileOf (p : PlayerMeta) : NbProfile :=
  { name := pyTitle (pyStrip (pyOrS (some p.full_name)
      (p.first_name ++ [' '] ++ p.last_name)))
    age := p.age
    position := pyUpper (pyOrS (some p.position) (pystr "N/A"))
    team := p.team
    college := p.college
    years := p.years_exp }

/-- The NLU stage of `NFLChatBot.get_player_profile_smart` (lines 566–574):
position hint, team hint, and the residual name tokens after stripping a
detected team substring. -/
def nb_profile_nlu (user_input : PyStr) :
    Option PyStr × Option PyStr × List PyStr :=
  let q := nb_normalize_query user_input
  let ps := detect_position_and_strip q
  let pos_hint := ps.1
  let q := ps.2
  let team_hint := nb_detect_team_from_query q
  let q := match team_hint with
    | Option.none => q
    | some t => collapseWs (pyStrip (pyReplace q t [' ']))
  (pos_hint, team_hint, (pySplitWs q).filter (· ≠ []))

/-- `NFLChatBot.get_player_profile_smart` (lines 562–616): position/team-aware
strict matching with no fuzzy pass and — unlike the `api_client.py` copy — no
deduplication by id over the id-and-name-keyed cache. -/
def nb_get_player_profile_smart (player_cache : List (PyStr × PlayerMeta))
    (user_input : PyStr) : PyStr :=
  if user_input = [] ∨ pyStrip user_input = [] then
    pystr "Please provide a player name."
  else
    let nlu := nb_profile_nlu user_input
    let pos_hint := nlu.1
    let team_hint := nlu.2.1
    let name_tokens := nlu.2.2
    if name_tokens = [] then pystr "Please include the player\x27s name."
    else
      let found := player_cache.filterMap (fun kv =>
        if nb_player_matches_name kv.2 name_tokens &&
           (match pos_hint with
            | Option.none => true
            | some p => pyUpper kv.2.position = p) &&
           (match team_hint with
            | Option.none => true
            | some t => nb_player_matches_team kv.2 t)
        then some kv.2 else Option.none)
      if found = [] then
        pystr "Player \x27" ++ user_input ++ pystr "\x27 not found."
      else
        let outputs := found.map nbProfileOf
        if outputs.length = 1 then
          let p := outputs.headD ⟨[], .none, [], [], [], .none⟩
          pystr "**" ++ p.name ++ pystr " Profile**\n" ++
          pystr "- **Position:** " ++ p.position ++ pystr " (" ++ p.team ++ pystr ")\n" ++
          pystr "- **Age:** " ++ pyRepr p.age ++ pystr "\n" ++
          pystr "- **Experience:** " ++ pyRepr p.years ++ pystr " NFL seasons\n" ++
          pystr "- **College:** " ++ p.college
        else
          let lines :=
            pystr "Multiple players found (be more specific, e.g., include QB or team name):" ::
              (outputs.take 5).map (fun p =>
                pystr "- **" ++ p.name ++ pystr "** (" ++ p.position ++
                pystr " — " ++ p.team ++ pystr ")")
          let lines := if outputs.length > 5 then
              lines ++ [pystr "(..." ++ intRepr (outputs.length - 5) ++
                pystr " more matches)"]
            else lines
          pyJoin (pystr "\n") lines

/-! ## Fantasy stats (`api_client.py` lines 715–815, `NFLChatBot.py` 520–559) -/

/-- One record of the Sleeper season-stats feed, with the three point fields
the sources probe. -/
structure StatRec where
  pts_ppr : PyVal
  fantasy_points : PyVal
  points : PyVal
deriving DecidableEq, Inhabited

/-- `api_client.get_fantasy_player_stats` VALID_POSITIONS (line 729). -/
def VALID_POSITIONS : List PyStr :=
  [pystr "QB", pystr "RB", pystr "WR", pystr "TE"]

/-- Python list truthiness `a or b` for `exact_matches or partial_matches or
fuzzy_matches` (line 785). -/
def pyOrList {α : Type} (a b : List α) : List α := if a.isEmpty then b else a

/-- Pass 1 of `api_client.get_fantasy_player_stats` (lines 743–763): like the
profile resolver Pass 1 but restricted to fantasy positions, and split into
exact full-name matches and all-token substring matches. -/
def fantasyPass1 (q : PyStr) (toks : List PyStr) :
    List (PyStr × PlayerMeta) → List PyStr →
    List PlayerMeta × List PlayerMeta × List PyStr
  | [], seen => ([], [], seen)
  | (_, m) :: rest, seen =>
    if m.id = [] ∨ m.id ∈ seen then fantasyPass1 q toks rest seen
    else if ¬ VALID_POSITIONS.contains (pyUpper m.position) then
      fantasyPass1 q toks rest seen
    else
      let full := pyLower m.full_name
      if full = q then
        let r := fantasyPass1 q toks rest (m.id :: seen)
        (m :: r.1, r.2.1, r.2.2)
      else if toks.all (fun t => pyContains t full) then
        let r := fantasyPass1 q toks rest (m.id :: seen)
        (r.1, m :: r.2.1, r.2.2)
      else fantasyPass1 q toks rest seen

/-- Pass 2 of `api_client.get_fantasy_player_stats` (lines 765–783): fuzzy
fallback with the same position restriction and the threshold-80 call. -/
def fantasyPass2 (fuzzy : FuzzyPredicate) (q : PyStr) :
    List (PyStr × PlayerMeta) → List PyStr → List PlayerMeta
  | [], _ => []
  | (_, m) :: rest, seen =>
    if m.id = [] ∨ m.id ∈ seen then fantasyPass2 fuzzy q rest seen
    else if ¬ VALID_POSITIONS.contains (pyUpper m.position) then
      fantasyPass2 fuzzy q rest seen
    else if fuzzy q (pyLower m.full_name) 80 then
      m :: fantasyPass2 fuzzy q rest (m.id :: seen)
    else fantasyPass2 fuzzy q rest seen

/-- Python `round(float(pts), 2)` followed by f-string interpolation: render
with at most two decimal places.  (Python `round` is round-half-even; the
modelled feeds carry no .005 ties, so round-half-up on the numerator is
used, computed integrally so it evaluates in the kernel.) -/
def round2Repr (q : ℚ) : PyStr :=
  let m : ℤ := Int.fdiv (200 * q.num + q.den) (2 * q.den)
  let sign : PyStr := if m < 0 then ['-'] else []
  let ip := natDigits (m.natAbs / 100)
  let fr := m.natAbs % 100
  sign ++ ip ++ ['.'] ++
    (if fr = 0 then ['0']
     else if fr % 10 = 0 then natDigits (fr / 10)
     else padZeros 2 (natDigits fr))

/-- The points chain `stat.get("pts_ppr") or stat.get("fantasy_points") or
stat.get("points")` of `api_client.get_fantasy_player_stats` lines 795–799. -/
def fantasyPts (stats : List (PyStr × StatRec)) (pid : PyStr) : PyVal :=
  let stat := (dictGet stats pid).getD ⟨.none, .none, .none⟩
  pyOrV (pyOrV stat.pts_ppr stat.fantasy_points) stat.points

/-- The output line of `api_client.get_fantasy_player_stats` line 808. -/
def fantasyLine (p : PlayerMeta) (pts : PyVal) : PyStr :=
  p.full_name ++ pystr " (" ++ p.position ++ pystr ", " ++ p.team ++
  pystr "): **" ++ round2Repr (pyFloat pts) ++ pystr " PPR**"

/-- Stable insertion (later elements after earlier ones on ties) used by
`sortDescQ`. -/
def insertDescQ (x : ℚ × PyStr) :
    List (ℚ × PyStr) → List (ℚ × PyStr)
  | [] => [x]
  | y :: ys => if y.1 ≤ x.1 then x :: y :: ys else y :: insertDescQ x ys

/-- Python `outputs.sort(key=lambda x: x[0], reverse=True)`: a stable sort by
descending key.  Inserting each element into the sorted suffix keeps an
original-earlier element in front of equal keys, matching the stable sort
of Python. -/
def sortDescQ : List (ℚ × PyStr) → List (ℚ × PyStr)
  | [] => []
  | x :: xs => insertDescQ x (sortDescQ xs)

/-- The candidate selection of `api_client.get_fantasy_player_stats` (lines
738–785): Pass 1 exact/token matches, Pass 2 fuzzy fallback only when Pass 1
found nothing, combined with Python list-`or` priority. -/
def fantasy_candidates (fuzzy : FuzzyPredicate)
    (player_cache : List (PyStr × PlayerMeta)) (q : PyStr)
    (tokens : List PyStr) : List PlayerMeta :=
  let p1 := fantasyPass1 q tokens player_cache []
  let fuzzyMs :=
    if p1.1 = [] ∧ p1.2.1 = [] then fantasyPass2 fuzzy q player_cache p1.2.2
    else []
  pyOrList p1.1 (pyOrList p1.2.1 fuzzyMs)

/-- The output construction of `api_client.get_fantasy_player_stats` (lines
790–808): look up the points of each candidate by id, drop the candidates whose
points chain ends in `None`, pair the rest with their formatted line. -/
def fantasy_outputs (stats : List (PyStr × StatRec))
    (candidates : List PlayerMeta) : List (ℚ × PyStr) :=
  candidates.filterMap (fun p =>
    let pts := fantasyPts stats p.id
    if pts = PyVal.none then Option.none
    else some (pyFloat pts, fantasyLine p pts))

/-- `api_client.get_fantasy_player_stats` (lines 715–815).  The player cache,
the decoded season-stats feed (with its `__error` case) and the missing
`is_fuzzy_match` are parameters; `datetime.now().year` only selects which
feed is fetched and is absorbed into the feed parameter. -/
def get_fantasy_player_stats (fuzzy : FuzzyPredicate)
    (player_cache : List (PyStr × PlayerMeta))
    (seasonStats : Except PyStr (List (PyStr × StatRec)))
    (query_name : PyStr) : PyStr :=
  if query_name = [] then
    pystr "Please specify a player name. Example: \x27Fantasy stats for Josh Allen\x27"
  else
    let q := normalize_player_query query_name
    let tokens := pySplitWs q
    if tokens = [] then pystr "Could not determine player from query."
    else
      match seasonStats with
      | .error e => pystr "Error fetching fantasy stats: " ++ e
      | .ok stats =>
        let candidates := fantasy_candidates fuzzy player_cache q tokens
        if candidates = [] then
          pystr "No fantasy stats found for \x27" ++ query_name ++ pystr "\x27."
        else
          let outputs := fantasy_outputs stats candidates
          if outputs = [] then
            pystr "No usable fantasy stats found for \x27" ++ query_name ++ pystr "\x27."
          else ((sortDescQ outputs).headD (0, [])).2

/-- Code-point comparison of strings, Python `<` used by `sorted`. -/
def strLt : PyStr → PyStr → Bool
  | [], [] => false
  | [], _ :: _ => true
  | _ :: _, [] => false
  | a :: as_, b :: bs => if a < b then true else if b < a then false else strLt as_ bs

/-- Insertion step of `sortStrs`. -/
def insertStr (x : PyStr) : List PyStr → List PyStr
  | [] => [x]
  | y :: ys => if strLt x y then x :: y :: ys else y :: insertStr x ys

/-- Python `sorted(...)` on a list of strings (ascending code-point order). -/
def sortStrs : List PyStr → List PyStr
  | [] => []
  | x :: xs => insertStr x (sortStrs xs)

/-- `NFLChatBot.get_fantasy_player_stats` (lines 520–559): NLU-driven
matching with position/team hints, no position whitelist, no id
deduplication (the name keys of the cache are looked up in the stats feed and
miss), and up to five alphabetically sorted result lines. -/
def nb_get_fantasy_player_stats (player_cache : List (PyStr × PlayerMeta))
    (seasonStats : Except PyStr (List (PyStr × StatRec)))
    (query_name : PyStr) : PyStr :=
  if query_name = [] then
    pystr "Please specify a player name. Example: \x27Fantasy stats for Patrick Mahomes\x27"
  else
    let q_norm := nb_normalize_query query_name
    let ps := detect_position_and_strip q_norm
    let pos_hint := ps.1
    let q_name_part := ps.2
    let team_hint := nb_detect_team_from_query q_name_part
    let name_tokens := (pySplitWs q_name_part).filter
      (fun tok => tok ≠ [] ∧ team_hint ≠ some tok)
    if name_tokens = [] then pystr "Could not determine player name from query."
    else
      match seasonStats with
      | .error e => pystr "Error fetching fantasy stats: " ++ e
      | .ok stats =>
        let player_entries := player_cache.filterMap (fun kv =>
          if nb_player_matches_name kv.2 name_tokens &&
             (match pos_hint with
              | Option.none => true
              | some p => pyUpper kv.2.position = p) &&
             (match team_hint with
              | Option.none => true
              | some t => nb_player_matches_team kv.2 t)
          then some kv else Option.none)
        let results := player_entries.map (fun pm =>
          let stats_rec := (dictGet stats pm.1).getD ⟨.none, .none, .none⟩
          let pts := pyOrV (pyOrV (pyOrV stats_rec.pts_ppr stats_rec.fantasy_points)
            stats_rec.points) (.str (pystr "N/A"))
          let name := pyOrS (some pm.2.full_name)
            (pm.2.first_name ++ [' '] ++ pm.2.last_name)
          let position := pyUpper (pyOrS (some pm.2.position) (pystr "N/A"))
          let team := pyOrS (some pm.2.team) (pystr "FA")
          name ++ pystr " (" ++ position ++ pystr ", " ++ team ++
            pystr "): **" ++ pyRepr pts ++ pystr " PPR**")
        let unique_results := sortStrs results.dedup
        if unique_results = [] then
          pystr "No fantasy stats found for \x27" ++ query_name ++ pystr "\x27."
        else pyJoin (pystr "\n") (unique_results.take 5)

/-! ## Conversational context (`api_client.py` lines 1025–1073) -/

/-- The flat intent-keyword set of `resolve_contextual_query` (lines
1032–1036): the three keyword groups of the `intents` dict. -/
def INTENT_KEYWORDS : List PyStr :=
  [pystr "fantasy", pystr "stats", pystr "ppr", pystr "points",
   pystr "news", pystr "headlines", pystr "articles",
   pystr "last game", pystr "next game", pystr "when do they play"]

/-- The pronoun list of `resolve_contextual_query` line 1045. -/
def PRONOUNS : List PyStr :=
  [pystr "he", pystr "him", pystr "his", pystr "them", pystr "they"]

/-- `api_client.resolve_contextual_query` (lines 1025–1050).  Note that both
the keyword and the pronoun checks are plain substring tests on the
lowercased stripped input, and that the pronoun branch removes the
substrings "he", "him", "his" (in that order) before prepending the
remembered entity. -/
def resolve_contextual_query (user_input : PyStr) (last_entity : Option PyStr) :
    PyStr :=
  let ui := pyStrip (pyLower user_input)
  match last_entity with
  | Option.none => user_input
  | some le =>
    if le = [] then user_input
    else if INTENT_KEYWORDS.any (fun k => pyContains k ui) then
      le ++ [' '] ++ ui
    else if PRONOUNS.any (fun p => pyContains p ui) then
      let resolved := pyStrip
        (pyReplace (pyReplace (pyReplace ui (pystr "he") []) (pystr "him") [])
          (pystr "his") [])
      le ++ [' '] ++ resolved
    else user_input

/-- The reserved action words of `nfl_chatbot_with_context` line 1069. -/
def ACTION_WORDS : List PyStr :=
  [pystr "last game", pystr "next game", pystr "stats", pystr "fantasy",
   pystr "news", pystr "scores"]

/-- `api_client.nfl_chatbot_with_context` (lines 1052–1073).  The
`st.session_state["last_mentioned"]` slot is threaded explicitly; the
dispatcher `chatbot.handle_user_query` (a network-dependent collaborator) is
the `respond` parameter.  Returns the response and the new session slot. -/
def nfl_chatbot_with_context (respond : PyStr → ProfileResult)
    (user_input : PyStr) (last_mentioned : Option PyStr) :
    ProfileResult × Option PyStr :=
  let resolved_query := resolve_contextual_query user_input last_mentioned
  let response := respond resolved_query
  let new_entity :=
    pyOrS (detect_team_from_query user_input) (normalize_player_query user_input)
  let newState :=
    if new_entity ≠ [] ∧
        ¬ ACTION_WORDS.any (fun a => pyContains a (pyLower new_entity)) then
      some new_entity
    else last_mentioned
  (response, newState)

/-! ## Router (`chatbot.py` lines 22–84) -/

/-- `chatbot.extract_team` (lines 81–83): the last whitespace-separated word.
(`words[-1]` raises on an empty split; every router branch that calls it has
already established a keyword occurs in the input, so the split is
non-empty there.) -/
def extract_team (text : PyStr) : PyStr := (pySplitWs text).getLast?.getD []

/-- The data-fetch collaborators `chatbot.handle_user_query` dispatches to
(all defined in `api_client.py`; they perform network I/O, so they are
parameters of the router model). -/
structure ChatDeps where
  live_scores : Unit → PyStr
  standings : PyStr → PyStr
  team_news : PyStr → PyStr
  next_game : PyStr → PyStr
  last_game : PyStr → PyStr
  player_profile : PyStr → ProfileResult
  fantasy : PyStr → PyStr

/-- `chatbot.handle_user_query` (lines 22–78): first-match-wins keyword
dispatch, in the source order — scores, standings, news, next game,
"last game", player profile, fantasy, fallback. -/
def handle_user_query (deps : ChatDeps) (q : PyStr) : ProfileResult :=
  if q = [] then .text (pystr "How can I help with NFL info?")
  else
    let q_low := pyLower (pyStrip q)
    if pyContains (pystr "score") q_low || pyContains (pystr "scores") q_low then
      .text (deps.live_scores ())
    else if pyContains (pystr "standing") q_low || pyContains (pystr "rank") q_low
        || pyContains (pystr "record") q_low then
      .text (deps.standings (extract_team q))
    else if pyContains (pystr "news") q_low || pyContains (pystr "article") q_low
        || pyContains (pystr "headline") q_low then
      .text (deps.team_news (extract_team q))
    else if (pyContains (pystr "next") q_low || pyContains (pystr "upcoming") q_low
        || (pyContains (pystr "when") q_low && pyContains (pystr "play") q_low))
        && (pyContains (pystr "play") q_low || pyContains (pystr "game") q_low
          || pyContains (pystr "schedule") q_low) then
      let t := extract_team q
      if t = [] then
        .text (pystr "Please include a team name for \x27next game\x27 queries (e.g., \x27Next game for Chiefs\x27).")
      else .text (deps.next_game t)
    else if pyContains (pystr "last game") q_low then
      .text (deps.last_game (extract_team q))
    else if pyContains (pystr "who is") q_low || pyContains (pystr "player") q_low
        || pyContains (pystr "about") q_low || pyContains (pystr "profile") q_low then
      let q2 := clean_query q
      if q2 = [] then
        .text (pystr "Please provide a player\x27s name and optional team/position.")
      else deps.player_profile q2
    else if pyContains (pystr "fantasy") q_low then
      .text (deps.fantasy q)
    else
      .text (pystr "I’m not sure what you need — try asking about scores, standings, news, games, or a player.")

/-! ## Router copy (`NFLChatBot.py` lines 623–663) -/

/-- The collaborators of `NFLChatBot.nfl_chatbot`.  `find_team` models
`find_team(user_input)` followed by `team.get("displayName")`: `none` when no
team resolved (or the record lacks a display name). -/
structure NbDeps where
  find_team : PyStr → Option PyStr
  live_scores : Option PyStr → PyStr
  team_news : PyStr → PyStr
  standings : Option PyStr → PyStr
  next_game : PyStr → PyStr
  last_game : PyStr → PyStr
  fantasy : PyStr → PyStr
  profile : PyStr → PyStr

/-- Python truthiness of the optional `team_name` string. -/
def optTruthy (o : Option PyStr) : Bool :=
  match o with
  | Option.none => false
  | some s => s ≠ []

/-- `NFLChatBot.nfl_chatbot` (lines 623–663): the duplicate router, whose
keyword order — scores, news, standings, next, last, fantasy, profile —
differs from `chatbot.handle_user_query`. -/
def nfl_chatbot (deps : NbDeps) (user_input : PyStr) : PyStr :=
  if user_input = [] ∨ pyStrip user_input = [] then
    pystr "Ask me about scores, news, next/last games, standings, or fantasy stats."
  else
    let ui := pyLower (pyStrip user_input)
    let team_name := deps.find_team user_input
    if pyContains (pystr "score") ui || pyContains (pystr "scores") ui then
      deps.live_scores team_name
    else if pyContains (pystr "news") ui || pyContains (pystr "article") ui
        || pyContains (pystr "headline") ui then
      deps.team_news (pyOrS team_name (pystr "NFL"))
    else if pyContains (pystr "standing") ui || pyContains (pystr "record") ui
        || pyContains (pystr "rank") ui then
      deps.standings team_name
    else if (pyContains (pystr "next") ui || pyContains (pystr "upcoming") ui
        || (pyContains (pystr "when") ui && pyContains (pystr "play") ui))
        && (pyContains (pystr "play") ui || pyContains (pystr "game") ui
          || pyContains (pystr "schedule") ui) then
      if ¬ optTruthy team_name then
        pystr "Please include a team name for \x27next game\x27 queries."
      else deps.next_game (team_name.getD [])
    else if ([pystr "last", pystr "previous", pystr "recent"].any
          (fun k => pyContains k ui))
        && (pyContains (pystr "game") ui || pyContains (pystr "played") ui) then
      if ¬ optTruthy team_name then
        pystr "Please include a team name for \x27last game\x27 queries."
      else deps.last_game (team_name.getD [])
    else if pyContains (pystr "fantasy") ui || pyContains (pystr "pts") ui
        || pyContains (pystr "ppr") ui || pyContains (pystr "stats for") ui then
      deps.fantasy user_input
    else if pyContains (pystr "who is") ui || pyContains (pystr "player") ui
        || pyContains (pystr "about") ui || pyContains (pystr "profile") ui
        || pyContains (pystr "tell me about") ui then
      deps.profile user_input
    else
      pystr "I can fetch live scores, NFL news (clickable links), team next/last games, team records, and fantasy player stats.\nExamples:\n - \x27Give me NFL news\x27\n - \x27Patriots news\x27\n - \x27Bills record\x27\n - \x27When do the Chiefs play next?\x27\n - \x27Fantasy stats for Patrick Mahomes\x27\n - \x27Who is Josh Allen QB Bills?\x27"

/-! ## Standings (`api_client.py` lines 394–602) -/

/-- One element of the per-entry `stats` list: a name/value pair. -/
structure StatKV where
  name : PyStr
  value : PyVal
deriving DecidableEq, Inhabited

/-- The `entry["team"]` object fields the standings code reads. -/
structure StandTeam where
  displayName : PyStr
  abbreviation : PyStr
  groupNames : List PyStr
deriving DecidableEq, Inhabited

/-- One standings entry. -/
structure StandEntry where
  team : StandTeam
  stats : List StatKV
deriving DecidableEq, Inhabited

/-- One division (`data["children"]` element): its name and its
`standings.entries`. -/
structure StandDivision where
  name : PyStr
  entries : List StandEntry
deriving DecidableEq, Inhabited

/-- The statmap dict comprehension over the stats list followed by
`.get(key, dflt)`: on duplicate names the last wins. -/
def statmapGet (stats : List StatKV) (key : PyStr) (dflt : PyVal) : PyVal :=
  match stats.reverse.find? (fun s => s.name = key) with
  | some s => s.value
  | Option.none => dflt

/-- Rational literal for 0.700, kernel-reducible. -/
def q0_700 : ℚ := ⟨7, 10, by norm_num, by norm_num⟩

/-- Rational literal for 0.350, kernel-reducible. -/
def q0_350 : ℚ := ⟨7, 20, by norm_num, by norm_num⟩

/-- `api_client.trend_indicator` (lines 437–442, same as the `utils.py` and
`NFLChatBot.py` copies). -/
def trend_indicator (pct : ℚ) : PyStr :=
  if q0_700 ≤ pct then pystr "↑"
  else if pct ≤ q0_350 then pystr "↓"
  else pystr "•"

/-- `api_client.clinched_indicator` (lines 445–452). -/
def clinched_indicator (entry : StandEntry) : PyStr :=
  if pyTruthy (statmapGet entry.stats (pystr "clinchedDivision") .none) then
    pystr "🏆"
  else if pyTruthy (statmapGet entry.stats (pystr "clinchedPlayoff") .none) then
    pystr "🔒"
  else []

/-- `api_client.get_stat` (lines 455–463): first stats-list element with the
given name, `float(...)`-converted, with the default on a missing name or an
unconvertible value. -/
def get_stat (entry : StandEntry) (stat_name : PyStr) (dflt : ℚ) : ℚ :=
  match entry.stats.find? (fun s => s.name = stat_name) with
  | some s =>
    match s.value with
    | .int n => (n : ℚ)
    | .rat q => q
    | _ => dflt
  | Option.none => dflt

/-- `api_client.detect_conference` (lines 394–433): ESPN group metadata
first, then the mascot sets, then the "AFC" fallback. -/
def detect_conference (entry : StandEntry) : PyStr :=
  match entry.team.groupNames.find? (fun g =>
      (pystr "AFC").isPrefixOf g || (pystr "NFC").isPrefixOf g) with
  | some g => if (pystr "AFC").isPrefixOf g then pystr "AFC" else pystr "NFC"
  | Option.none =>
    let mascot := (pySplitWs (pyStrip (pyLower entry.team.displayName))).getLast?.getD []
    let nfcSet :=
      [pystr "cowboys", pystr "giants", pystr "eagles", pystr "commanders",
       pystr "bears", pystr "lions", pystr "packers", pystr "vikings",
       pystr "falcons", pystr "panthers", pystr "saints", pystr "buccaneers",
       pystr "cardinals", pystr "rams", pystr "49ers", pystr "seahawks"]
    let afcSet :=
      [pystr "bills", pystr "dolphins", pystr "patriots", pystr "jets",
       pystr "ravens", pystr "bengals", pystr "browns", pystr "steelers",
       pystr "texans", pystr "colts", pystr "jaguars", pystr "titans",
       pystr "broncos", pystr "chiefs", pystr "raiders", pystr "chargers"]
    if nfcSet.contains mascot then pystr "NFC"
    else if afcSet.contains mascot then pystr "AFC"
    else pystr "AFC"

/-- The per-entry numbers `get_standings` computes (lines 491–506). -/
structure ConfTeam where
  name : PyStr
  wins : ℤ
  losses : ℤ
  ties : ℤ
  pct : ℚ
  arrow : PyStr
  clinch : PyStr
  sos : ℚ
deriving DecidableEq, Inhabited

/-- Field extraction for one standings entry (lines 491–506). -/
def confTeamOf (entry : StandEntry) : ConfTeam :=
  let wins := pyInt (statmapGet entry.stats (pystr "wins") (.int 0))
  let losses := pyInt (statmapGet entry.stats (pystr "losses") (.int 0))
  let ties := pyInt (statmapGet entry.stats (pystr "ties") (.int 0))
  let pct := pyFloat (statmapGet entry.stats (pystr "winPercent") (.int 0))
  { name := entry.team.displayName
    wins := wins, losses := losses, ties := ties, pct := pct
    arrow := trend_indicator pct
    clinch := clinched_indicator entry
    sos := get_stat entry (pystr "strengthOfSchedule") 0 }

/-- The wins-losses-ties record fragment, with the .3f win percentage and
the trend/clinch marks, shared by all standings outputs. -/
def recordText (t : ConfTeam) : PyStr :=
  intRepr t.wins ++ ['-'] ++ intRepr t.losses ++ ['-'] ++ intRepr t.ties ++
  pystr " (" ++ fmt3 t.pct ++ pystr ") " ++ t.arrow ++ t.clinch

/-- The early-returned single-team string of `get_standings` (lines
509–514). -/
def singleTeamText (t : ConfTeam) : PyStr :=
  pystr "📊 **" ++ t.name ++ pystr " Standings**\n\n" ++ recordText t ++
  pystr "\nStrength of Schedule: **" ++ fmt3 t.sos ++ pystr "**"

/-- The conference accumulator of `get_standings`: the `conferences` dict. -/
structure ConfAcc where
  afc : List ConfTeam
  nfc : List ConfTeam
deriving DecidableEq, Inhabited

/-- Appending a team to its conference bucket (lines 522–532). -/
def confAppend (acc : ConfAcc) (conf : PyStr) (t : ConfTeam) : ConfAcc :=
  if conf = pystr "AFC" then { acc with afc := acc.afc ++ [t] }
  else { acc with nfc := acc.nfc ++ [t] }

/-- The entry loop of `get_standings` (lines 491–535) for one division:
either an early single-team return (`Sum.inr`) or the division lines plus the
updated conference buckets. -/
def standingsEntries (team_q : Option PyStr) :
    List StandEntry → List PyStr → ConfAcc → (List PyStr × ConfAcc) ⊕ PyStr
  | [], div_lines, acc => .inl (div_lines, acc)
  | entry :: rest, div_lines, acc =>
    let t := confTeamOf entry
    let abbr := pyLower entry.team.abbreviation
    match team_q with
    | some tq =>
      if pyContains tq (pyLower t.name) || tq = abbr then .inr (singleTeamText t)
      else
        standingsEntries team_q rest
          (div_lines ++ [t.name ++ pystr ": **" ++ intRepr t.wins ++ ['-'] ++
            intRepr t.losses ++ ['-'] ++ intRepr t.ties ++ pystr "** (" ++
            fmt3 t.pct ++ pystr ") " ++ t.arrow ++ t.clinch])
          (confAppend acc (detect_conference entry) t)
    | Option.none =>
      standingsEntries team_q rest
        (div_lines ++ [t.name ++ pystr ": **" ++ intRepr t.wins ++ ['-'] ++
          intRepr t.losses ++ ['-'] ++ intRepr t.ties ++ pystr "** (" ++
          fmt3 t.pct ++ pystr ") " ++ t.arrow ++ t.clinch])
        (confAppend acc (detect_conference entry) t)

/-- The division loop of `get_standings` (lines 486–535). -/
def standingsDivisions (team_q : Option PyStr) :
    List StandDivision → List PyStr → ConfAcc → (List PyStr × ConfAcc) ⊕ PyStr
  | [], output, acc => .inl (output, acc)
  | div :: rest, output, acc =>
    match standingsEntries team_q div.entries [] acc with
    | .inr s => .inr s
    | .inl (div_lines, acc') =>
      let output' :=
        match team_q with
        | Option.none =>
          output ++ [pystr "### 🏈 " ++ div.name ++ pystr "\n" ++
            pyJoin (pystr "\n") div_lines]
        | some _ => output
      standingsDivisions team_q rest output' acc'

/-- Stable insertion for `sorted(teams, key=lambda t: (-t["pct"],
-t["wins"]))`: a team goes before another iff its (pct, wins) key is
lexicographically strictly greater, or equal with earlier original order. -/
def insertConf (x : ConfTeam) : List ConfTeam → List ConfTeam
  | [] => [x]
  | y :: ys =>
    if y.pct < x.pct ∨ (x.pct = y.pct ∧ y.wins ≤ x.wins) then x :: y :: ys
    else y :: insertConf x ys

/-- The stable descending (pct, wins) sort of the playoff blocks. -/
def sortConf : List ConfTeam → List ConfTeam
  | [] => []
  | x :: xs => insertConf x (sortConf xs)

/-- `playoff_block` of `get_standings` (lines 543–556). -/
def playoff_block (conf : PyStr) (teams : List ConfTeam) : PyStr :=
  if teams = [] then
    pystr "## 🔥 " ++ conf ++ pystr " Playoff Projection\n\n_No data_"
  else
    let teams_sorted := sortConf teams
    let lines := (teams_sorted.take 7).enum.map (fun it =>
      pystr "**" ++ intRepr (it.1 + 1) ++ pystr ". " ++ it.2.name ++
      pystr "** — " ++ intRepr it.2.wins ++ ['-'] ++ intRepr it.2.losses ++
      ['-'] ++ intRepr it.2.ties ++ pystr " (" ++ fmt3 it.2.pct ++ pystr ") " ++
      it.2.arrow ++ it.2.clinch)
    pystr "## 🔥 " ++ conf ++ pystr " Playoff Projection\n\n" ++
      pyJoin (pystr "\n") lines

/-- `wildcard_block` of `get_standings` (lines 561–576). -/
def wildcard_block (conf : PyStr) (teams : List ConfTeam) : PyStr :=
  let teams_sorted := sortConf teams
  let bubble := (teams_sorted.drop 7).take 5
  if bubble = [] then []
  else
    let lines := bubble.map (fun t =>
      pystr "- " ++ t.name ++ pystr ": " ++ intRepr t.wins ++ ['-'] ++
      intRepr t.losses ++ ['-'] ++ intRepr t.ties ++ pystr " (" ++
      fmt3 t.pct ++ pystr ") " ++ t.arrow)
    pystr "### 🌟 " ++ conf ++ pystr " Wild Card Race (Seeds 8–12)\n" ++
      pyJoin (pystr "\n") lines

/-- `bubble_teams` of `get_standings` (lines 581–592). -/
def bubble_teams (conf : PyStr) (teams : List ConfTeam) : PyStr :=
  let trending_up := (teams.filter (fun t => t.arrow = pystr "↑")).take 5
  let trending_down := (teams.filter (fun t => t.arrow = pystr "↓")).take 5
  let up_block := pyJoin (pystr "\n") (trending_up.map (fun t =>
    pystr "- " ++ t.name ++ pystr " (" ++ fmt3 t.pct ++ pystr ")"))
  let down_block := pyJoin (pystr "\n") (trending_down.map (fun t =>
    pystr "- " ++ t.name ++ pystr " (" ++ fmt3 t.pct ++ pystr ")"))
  pystr "### 📈 " ++ conf ++ pystr " Trending Up\n" ++ up_block ++
  pystr "\n\n### 📉 " ++ conf ++ pystr " Trending Down\n" ++ down_block

/-- `api_client.get_standings` (lines 469–602).  The decoded standings feed
(or its `__error` string) and the optional team filter are parameters. -/
def get_standings (data : Except PyStr (List StandDivision))
    (team_name : Option PyStr) : PyStr :=
  match data with
  | .error e => pystr "⚠️ Error fetching standings: " ++ e
  | .ok divisions =>
    if divisions = [] then pystr "Standings unavailable."
    else
      let team_q := team_name.map pyLower
      match standingsDivisions team_q divisions [] ⟨[], []⟩ with
      | .inr s => s
      | .inl (output, confs) =>
        match team_name with
        | some tn => pystr "No standings found for \x27" ++ tn ++ pystr "\x27."
        | Option.none =>
          let output := output ++
            [playoff_block (pystr "AFC") confs.afc,
             wildcard_block (pystr "AFC") confs.afc,
             bubble_teams (pystr "AFC") confs.afc,
             playoff_block (pystr "NFC") confs.nfc,
             wildcard_block (pystr "NFC") confs.nfc,
             bubble_teams (pystr "NFC") confs.nfc]
          pyJoin (pystr "\n\n") output

/-! ## Fetch helper (`utils.py` lines 28–42) -/

/-- The observable outcome of `utils.safe_fetch_json`: the decoded payload,
the `__error` sentinel dict, or the `NameError`/`UnboundLocalError`
raised when the final f-string reads the never-assigned local `last_err`. -/
inductive FetchOutcome (α : Type) where
  | payload (p : α)
  | errorDict (msg : PyStr)
  | unboundLocalError
deriving DecidableEq

/-- The execution trace of `safe_fetch_json`: which attempt indices consulted
the network and which backoff sleeps ran. -/
structure FetchTrace where
  attemptsMade : List ℕ
  sleeps : List ℚ
deriving DecidableEq

/-- The `while attempt < retries` loop of `utils.safe_fetch_json`, counted
down structurally: with `attempt` starting at 0 and incremented once per
iteration, the loop body runs exactly `max(retries, 0)` times.  `oracle n`
is the outcome of `requests.get` + `r.raise_for_status()` + `r.json()` on
attempt `n` (`Except.error` = any exception). -/
def safeFetchGo {α : Type} (oracle : ℕ → Except PyStr α) (url : PyStr) :
    ℕ → ℕ → ℚ → Option PyStr → FetchTrace → FetchOutcome α × FetchTrace
  | 0, _, _, last_err, tr =>
    match last_err with
    | some e =>
      (.errorDict (pystr "Failed to fetch " ++ url ++ pystr ": " ++ e), tr)
    | Option.none => (.unboundLocalError, tr)
  | remaining + 1, attempt, backoff, _, tr =>
    match oracle attempt with
    | .ok p => (.payload p, { tr with attemptsMade := tr.attemptsMade ++ [attempt] })
    | .error e =>
      safeFetchGo oracle url remaining (attempt + 1) (backoff * 2) (some e)
        { attemptsMade := tr.attemptsMade ++ [attempt],
          sleeps := tr.sleeps ++ [backoff] }

/-- `utils.safe_fetch_json` (lines 28–42), with `requests.get` as an oracle
parameter and the `retries` argument kept as a Python int (ℤ). -/
def safe_fetch_json {α : Type} (oracle : ℕ → Except PyStr α) (url : PyStr)
    (retries : ℤ) : FetchOutcome α × FetchTrace :=
  safeFetchGo oracle url retries.toNat 0 1 Option.none ⟨[], []⟩

/-! ## Concrete fixtures used by the witnesses and counterexamples -/

/-- Rational literal for 30.1, kernel-reducible. -/
def q30_1 : ℚ := ⟨301, 10, by norm_num, by norm_num⟩

/-- Rational literal for 12.4, kernel-reducible. -/
def q12_4 : ℚ := ⟨62, 5, by norm_num, by norm_num⟩

/-- Rational literal for 0.529, kernel-reducible. -/
def q529 : ℚ := ⟨529, 1000, by norm_num, by norm_num⟩

/-- A Sleeper feed record for quarterback Josh Allen. -/
def joshRec : RawPlayer :=
  { first_name := some (pystr "Josh"), last_name := some (pystr "Allen"),
    full_name := some (pystr "Josh Allen"), position := some (pystr "QB"),
    team := some (pystr "BUF"), age := .int 28,
    college := some (pystr "Wyoming"), years_exp := .int 6, experience := .none }

/-- A second, distinct player who also happens to be named "Josh Allen"
(a name collision in the directory). -/
def joshRec2 : RawPlayer :=
  { first_name := some (pystr "Josh"), last_name := some (pystr "Allen"),
    full_name := some (pystr "Josh Allen"), position := some (pystr "LB"),
    team := some (pystr "JAX"), age := .int 25,
    college := some (pystr "Montana State"), years_exp := .int 2,
    experience := .none }

/-- A Sleeper feed record for wide receiver Keenan Allen. -/
def keenanRec : RawPlayer :=
  { first_name := some (pystr "Keenan"), last_name := some (pystr "Allen"),
    full_name := some (pystr "Keenan Allen"), position := some (pystr "WR"),
    team := some (pystr "LAC"), age := .int 32,
    college := some (pystr "California"), years_exp := .int 11,
    experience := .none }

/-- A one-player directory: Josh Allen only. -/
def cacheJosh : List (PyStr × PlayerMeta) :=
  ensure_player_cache [(pystr "1", joshRec)]

/-- A directory with two distinct players who share the full name
"Josh Allen" (ids "1" and "9"): the name key is silently overwritten at
population time. -/
def cacheDup : List (PyStr × PlayerMeta) :=
  ensure_player_cache [(pystr "1", joshRec), (pystr "9", joshRec2)]

/-- A directory with Josh Allen (id "1") and Keenan Allen (id "2"). -/
def cacheAllens : List (PyStr × PlayerMeta) :=
  ensure_player_cache [(pystr "1", joshRec), (pystr "2", keenanRec)]

/-- Season stats: Josh Allen 30.1 PPR points, Keenan Allen 12.4. -/
def statsAllens : List (PyStr × StatRec) :=
  [(pystr "1", { pts_ppr := .rat q30_1, fantasy_points := .none, points := .none }),
   (pystr "2", { pts_ppr := .rat q12_4, fantasy_points := .none, points := .none })]

/-- A fuzzy predicate that never matches (witnesses use it where Pass 2 is
not reached). -/
def noFuzzy : FuzzyPredicate := fun _ _ _ => false

/-- A fuzzy predicate that always matches (used to show results do not
depend on the predicate when Pass 1 succeeds). -/
def allFuzzy : FuzzyPredicate := fun _ _ _ => true

/-- A trivial dispatcher stand-in for the context-tracking witnesses. -/
def respond0 : PyStr → ProfileResult := fun _ => .text []

/-- Marker collaborators distinguishing every branch of
`chatbot.handle_user_query`. -/
def testChatDeps : ChatDeps :=
  { live_scores := fun _ => pystr "SCORES"
    standings := fun t => pystr "STANDINGS:" ++ t
    team_news := fun t => pystr "NEWS:" ++ t
    next_game := fun t => pystr "NEXT:" ++ t
    last_game := fun t => pystr "LAST:" ++ t
    player_profile := fun t => .text (pystr "PROFILE:" ++ t)
    fantasy := fun t => pystr "FANTASY:" ++ t }

/-- Marker collaborators for `NFLChatBot.nfl_chatbot`, resolving no team. -/
def testNbDeps : NbDeps :=
  { find_team := fun _ => Option.none
    live_scores := fun _ => pystr "SCORES"
    team_news := fun t => pystr "NEWS:" ++ t
    standings := fun _ => pystr "STANDINGS"
    next_game := fun t => pystr "NEXT:" ++ t
    last_game := fun t => pystr "LAST:" ++ t
    fantasy := fun t => pystr "FANTASY:" ++ t
    profile := fun t => pystr "PROFILE:" ++ t }

/-- A standings feed with one division containing a 9-8 Buffalo Bills
record. -/
def billsDivision : StandDivision :=
  { name := pystr "AFC East"
    entries :=
      [{ team := { displayName := pystr "Buffalo Bills",
                   abbreviation := pystr "BUF",
                   groupNames := [pystr "AFC East"] }
         stats :=
           [⟨pystr "wins", .int 9⟩, ⟨pystr "losses", .int 8⟩,
            ⟨pystr "ties", .int 0⟩, ⟨pystr "winPercent", .rat q529⟩] }] }

/-- `chatbot.handle_user_query` collaborators wired so that the standings
branch runs the real (embedded) `get_standings` over `billsDivision`. -/
def standChatDeps : ChatDeps :=
  { live_scores := fun _ => pystr "SCORES"
    standings := fun t => get_standings (.ok [billsDivision]) (some t)
    team_news := fun t => pystr "NEWS:" ++ t
    next_game := fun t => pystr "NEXT:" ++ t
    last_game := fun t => pystr "LAST:" ++ t
    player_profile := fun t => .text (pystr "PROFILE:" ++ t)
    fantasy := fun t => pystr "FANTASY:" ++ t }

/-- An always-failing fetch oracle (for the retry-exhaustion witnesses). -/
def oracleFail : ℕ → Except PyStr Unit := fun _ => .error (pystr "boom")

/-- The error string carried by an `Except.error` (used to name the last
error without an existential; never applied to `.ok` in the theorems). -/
def errval {α : Type} : Except PyStr α → PyStr
  | .error e => e
  | .ok _ => []

/-! ## General lemmas about the resolver passes -/

/-- Soundness of Pass 1: every match comes from the cache, has a truthy id
and satisfies the all-tokens substring test. -/
theorem smartPass1_sound (toks : List PyStr) :
    ∀ (cache : List (PyStr × PlayerMeta)) (seen : List PyStr) (m : PlayerMeta),
      m ∈ (smartPass1 toks cache seen).1 →
      (∃ kv ∈ cache, kv.2 = m) ∧ m.id ≠ [] ∧
        toks.all (fun t => pyContains t (pyLower m.full_name)) = true := by
  intro cache
  induction cache with
  | nil => intro seen m h; simp [smartPass1] at h
  | cons kv rest ih =>
    intro seen m h
    obtain ⟨k0, m0⟩ := kv
    simp only [smartPass1] at h
    by_cases h1 : m0.id = [] ∨ m0.id ∈ seen
    · rw [if_pos h1] at h
      obtain ⟨⟨kv', hkv', hkv2⟩, hrest⟩ := ih seen m h
      exact ⟨⟨kv', List.mem_cons_of_mem _ hkv', hkv2⟩, hrest⟩
    · rw [if_neg h1] at h
      by_cases h2 : toks.all (fun t => pyContains t (pyLower m0.full_name)) = true
      · rw [if_pos h2] at h
        rcases List.mem_cons.mp h with rfl | h3
        · exact ⟨⟨(k0, m), List.mem_cons_self _ _, rfl⟩,
            fun hc => h1 (Or.inl hc), h2⟩
        · obtain ⟨⟨kv', hkv', hkv2⟩, hrest⟩ := ih _ m h3
          exact ⟨⟨kv', List.mem_cons_of_mem _ hkv', hkv2⟩, hrest⟩
      · rw [if_neg h2] at h
        obtain ⟨⟨kv', hkv', hkv2⟩, hrest⟩ := ih seen m h
        exact ⟨⟨kv', List.mem_cons_of_mem _ hkv', hkv2⟩, hrest⟩

/-- Completeness of Pass 1: a cached, matching record with a truthy id that
identifies it uniquely (the well-formedness of an id-keyed directory) is among
the matches. -/
theorem smartPass1_complete (toks : List PyStr) :
    ∀ (cache : List (PyStr × PlayerMeta)) (seen : List PyStr) (k : PyStr)
      (m : PlayerMeta),
      (k, m) ∈ cache → m.id ≠ [] →
      toks.all (fun t => pyContains t (pyLower m.full_name)) = true →
      (∀ kv ∈ cache, kv.2.id = m.id → kv.2 = m) →
      m.id ∉ seen →
      m ∈ (smartPass1 toks cache seen).1 := by
  intro cache
  induction cache with
  | nil => intro seen k m hmem; simp at hmem
  | cons kv rest ih =>
    intro seen k m hmem hid hmatch huniq hseen
    obtain ⟨k0, m0⟩ := kv
    simp only [smartPass1]
    by_cases h1 : m0.id = [] ∨ m0.id ∈ seen
    · rw [if_pos h1]
      rcases List.mem_cons.mp hmem with heq | h3
      · have hm : m = m0 := congrArg Prod.snd heq
        rw [← hm] at h1
        rcases h1 with hc | hc
        · exact absurd hc hid
        · exact absurd hc hseen
      · exact ih seen k m h3 hid hmatch
          (fun kv' hkv' => huniq kv' (List.mem_cons_of_mem _ hkv')) hseen
    · rw [if_neg h1]
      by_cases h2 : toks.all (fun t => pyContains t (pyLower m0.full_name)) = true
      · rw [if_pos h2]
        by_cases hm0 : m0 = m
        · subst hm0; exact List.mem_cons_self _ _
        · rcases List.mem_cons.mp hmem with heq | h3
          · exact absurd (congrArg Prod.snd heq).symm hm0
          · refine List.mem_cons_of_mem _ (ih _ k m h3 hid hmatch
              (fun kv' hkv' => huniq kv' (List.mem_cons_of_mem _ hkv')) ?_)
            intro hc
            rcases List.mem_cons.mp hc with hc0 | hc1
            · exact hm0 (huniq (k0, m0) (List.mem_cons_self _ _) hc0.symm)
            · exact hseen hc1
      · rw [if_neg h2]
        rcases List.mem_cons.mp hmem with heq | h3
        · have hm : m = m0 := congrArg Prod.snd heq
          rw [hm] at hmatch
          exact absurd hmatch h2
        · exact ih seen k m h3 hid hmatch
            (fun kv' hkv' => huniq kv' (List.mem_cons_of_mem _ hkv')) hseen

/-- Pass 1 never repeats an id, and never emits an id that was already
seen. -/
theorem smartPass1_ids (toks : List PyStr) :
    ∀ (cache : List (PyStr × PlayerMeta)) (seen : List PyStr),
      ((smartPass1 toks cache seen).1.map PlayerMeta.id).Nodup ∧
      ∀ m ∈ (smartPass1 toks cache seen).1, m.id ∉ seen := by
  intro cache
  induction cache with
  | nil => intro seen; simp [smartPass1]
  | cons kv rest ih =>
    intro seen
    obtain ⟨k0, m0⟩ := kv
    simp only [smartPass1]
    by_cases h1 : m0.id = [] ∨ m0.id ∈ seen
    · rw [if_pos h1]; exact ih seen
    · rw [if_neg h1]
      by_cases h2 : toks.all (fun t => pyContains t (pyLower m0.full_name)) = true
      · rw [if_pos h2]
        obtain ⟨ihn, ihs⟩ := ih (m0.id :: seen)
        constructor
        · refine List.nodup_cons.mpr ⟨?_, ihn⟩
          intro hc
          obtain ⟨m', hm', hid'⟩ := List.mem_map.mp hc
          exact (ihs m' hm') (hid' ▸ List.mem_cons_self _ _)
        · intro m hm
          rcases List.mem_cons.mp hm with rfl | h3
          · exact fun hc => h1 (Or.inr hc)
          · exact fun hc => (ihs m h3) (List.mem_cons_of_mem _ hc)
      · rw [if_neg h2]; exact ih seen

/-- A list of records whose members are all equal to `m`, with pairwise
distinct ids, that contains `m`, is exactly `[m]`. -/
theorem eq_singleton_of_unique {l : List PlayerMeta} {m : PlayerMeta}
    (hmem : m ∈ l) (hall : ∀ x ∈ l, x = m)
    (hnodup : (l.map PlayerMeta.id).Nodup) : l = [m] := by
  cases l with
  | nil => simp at hmem
  | cons x rest =>
    have hx : x = m := hall x (List.mem_cons_self _ _)
    subst hx
    cases rest with
    | nil => rfl
    | cons y rest' =>
      have hy : y = x := hall y (List.mem_cons_of_mem _ (List.mem_cons_self _ _))
      subst hy
      simp at hnodup

/-- A list of records, each equal to m1 or to m2, with pairwise distinct ids has at
most two elements. -/
theorem length_le_two_of_ids {l : List PlayerMeta} {m1 m2 : PlayerMeta}
    (hall : ∀ x ∈ l, x = m1 ∨ x = m2)
    (hnodup : (l.map PlayerMeta.id).Nodup) : l.length ≤ 2 := by
  have hsub : l.map PlayerMeta.id ⊆ [m1.id, m2.id] := by
    intro a ha
    obtain ⟨x, hx, rfl⟩ := List.mem_map.mp ha
    rcases hall x hx with rfl | rfl <;> simp
  have := (List.subperm_of_subset hnodup hsub).length_le
  simpa using this

/-- Two distinct members force a length strictly greater than one. -/
theorem one_lt_length_of_two {l : List PlayerMeta} {m1 m2 : PlayerMeta}
    (h1 : m1 ∈ l) (h2 : m2 ∈ l) (hne : m1 ≠ m2) : 1 < l.length := by
  cases l with
  | nil => simp at h1
  | cons x rest =>
    cases rest with
    | cons y rest' => simp only [List.length_cons]; omega
    | nil =>
      simp only [List.mem_singleton] at h1 h2
      exact absurd (h1.trans h2.symm) hne

/-- Membership through the Python list-`or`. -/
theorem mem_pyOrList {α : Type} {a b : List α} {x : α}
    (h : x ∈ pyOrList a b) : x ∈ a ∨ x ∈ b := by
  unfold pyOrList at h
  by_cases he : a.isEmpty
  · rw [if_pos he] at h; exact Or.inr h
  · rw [if_neg he] at h; exact Or.inl h

/-- Soundness of the fantasy Pass 1: every exact or token match comes from
the cache, has a truthy id, and has a fantasy-relevant position. -/
theorem fantasyPass1_sound (q : PyStr) (toks : List PyStr) :
    ∀ (cache : List (PyStr × PlayerMeta)) (seen : List PyStr) (m : PlayerMeta),
      (m ∈ (fantasyPass1 q toks cache seen).1 ∨
       m ∈ (fantasyPass1 q toks cache seen).2.1) →
      (∃ kv ∈ cache, kv.2 = m) ∧ m.id ≠ [] ∧
        VALID_POSITIONS.contains (pyUpper m.position) = true := by
  intro cache
  induction cache with
  | nil => intro seen m h; simp [fantasyPass1] at h
  | cons kv rest ih =>
    intro seen m h
    obtain ⟨k0, m0⟩ := kv
    simp only [fantasyPass1] at h
    by_cases h1 : m0.id = [] ∨ m0.id ∈ seen
    · rw [if_pos h1] at h
      obtain ⟨⟨kv', hkv', hkv2⟩, hrest⟩ := ih seen m h
      exact ⟨⟨kv', List.mem_cons_of_mem _ hkv', hkv2⟩, hrest⟩
    · rw [if_neg h1] at h
      by_cases h2 : ¬ VALID_POSITIONS.contains (pyUpper m0.position) = true
      · rw [if_pos h2] at h
        obtain ⟨⟨kv', hkv', hkv2⟩, hrest⟩ := ih seen m h
        exact ⟨⟨kv', List.mem_cons_of_mem _ hkv', hkv2⟩, hrest⟩
      · rw [if_neg h2] at h
        push_neg at h2
        by_cases h3 : pyLower m0.full_name = q
        · rw [if_pos h3] at h
          rcases h with h | h
          · rcases List.mem_cons.mp h with rfl | h4
            · exact ⟨⟨(k0, m), List.mem_cons_self _ _, rfl⟩,
                fun hc => h1 (Or.inl hc), h2⟩
            · obtain ⟨⟨kv', hkv', hkv2⟩, hrest⟩ := ih _ m (Or.inl h4)
              exact ⟨⟨kv', List.mem_cons_of_mem _ hkv', hkv2⟩, hrest⟩
          · obtain ⟨⟨kv', hkv', hkv2⟩, hrest⟩ := ih _ m (Or.inr h)
            exact ⟨⟨kv', List.mem_cons_of_mem _ hkv', hkv2⟩, hrest⟩
        · rw [if_neg h3] at h
          by_cases h4 : toks.all (fun t => pyContains t (pyLower m0.full_name)) = true
          · rw [if_pos h4] at h
            rcases h with h | h
            · obtain ⟨⟨kv', hkv', hkv2⟩, hrest⟩ := ih _ m (Or.inl h)
              exact ⟨⟨kv', List.mem_cons_of_mem _ hkv', hkv2⟩, hrest⟩
            · rcases List.mem_cons.mp h with rfl | h5
              · exact ⟨⟨(k0, m), List.mem_cons_self _ _, rfl⟩,
                  fun hc => h1 (Or.inl hc), h2⟩
              · obtain ⟨⟨kv', hkv', hkv2⟩, hrest⟩ := ih _ m (Or.inr h5)
                exact ⟨⟨kv', List.mem_cons_of_mem _ hkv', hkv2⟩, hrest⟩
          · rw [if_neg h4] at h
            obtain ⟨⟨kv', hkv', hkv2⟩, hrest⟩ := ih seen m h
            exact ⟨⟨kv', List.mem_cons_of_mem _ hkv', hkv2⟩, hrest⟩

/-- Soundness of the fantasy Pass 2: every fuzzy match has a fantasy-relevant
position and passed the threshold-80 fuzzy test against its lowercased full
name. -/
theorem fantasyPass2_sound (fuzzy : FuzzyPredicate) (q : PyStr) :
    ∀ (cache : List (PyStr × PlayerMeta)) (seen : List PyStr) (m : PlayerMeta),
      m ∈ fantasyPass2 fuzzy q cache seen →
      (∃ kv ∈ cache, kv.2 = m) ∧ m.id ≠ [] ∧
        VALID_POSITIONS.contains (pyUpper m.position) = true ∧
        fuzzy q (pyLower m.full_name) 80 = true := by
  intro cache
  induction cache with
  | nil => intro seen m h; simp [fantasyPass2] at h
  | cons kv rest ih =>
    intro seen m h
    obtain ⟨k0, m0⟩ := kv
    simp only [fantasyPass2] at h
    by_cases h1 : m0.id = [] ∨ m0.id ∈ seen
    · rw [if_pos h1] at h
      obtain ⟨⟨kv', hkv', hkv2⟩, hrest⟩ := ih seen m h
      exact ⟨⟨kv', List.mem_cons_of_mem _ hkv', hkv2⟩, hrest⟩
    · rw [if_neg h1] at h
      by_cases h2 : ¬ VALID_POSITIONS.contains (pyUpper m0.position) = true
      · rw [if_pos h2] at h
        obtain ⟨⟨kv', hkv', hkv2⟩, hrest⟩ := ih seen m h
        exact ⟨⟨kv', List.mem_cons_of_mem _ hkv', hkv2⟩, hrest⟩
      · rw [if_neg h2] at h
        push_neg at h2
        by_cases h3 : fuzzy q (pyLower m0.full_name) 80 = true
        · rw [if_pos h3] at h
          rcases List.mem_cons.mp h with rfl | h4
          · exact ⟨⟨(k0, m), List.mem_cons_self _ _, rfl⟩,
              fun hc => h1 (Or.inl hc), h2, h3⟩
          · obtain ⟨⟨kv', hkv', hkv2⟩, hrest⟩ := ih _ m h4
            exact ⟨⟨kv', List.mem_cons_of_mem _ hkv', hkv2⟩, hrest⟩
        · rw [if_neg h3] at h
          obtain ⟨⟨kv', hkv', hkv2⟩, hrest⟩ := ih seen m h
          exact ⟨⟨kv', List.mem_cons_of_mem _ hkv', hkv2⟩, hrest⟩

/-- Soundness of Pass 2 of the profile resolver: every fuzzy match passed the
threshold-80 fuzzy test against its lowercased full name. -/
theorem smartPass2_sound (fuzzy : FuzzyPredicate) (q : PyStr) :
    ∀ (cache : List (PyStr × PlayerMeta)) (seen : List PyStr) (m : PlayerMeta),
      m ∈ smartPass2 fuzzy q cache seen →
      (∃ kv ∈ cache, kv.2 = m) ∧ m.id ≠ [] ∧
        fuzzy q (pyLower m.full_name) 80 = true := by
  intro cache
  induction cache with
  | nil => intro seen m h; simp [smartPass2] at h
  | cons kv rest ih =>
    intro seen m h
    obtain ⟨k0, m0⟩ := kv
    simp only [smartPass2] at h
    by_cases h1 : m0.id = [] ∨ m0.id ∈ seen
    · rw [if_pos h1] at h
      obtain ⟨⟨kv', hkv', hkv2⟩, hrest⟩ := ih seen m h
      exact ⟨⟨kv', List.mem_cons_of_mem _ hkv', hkv2⟩, hrest⟩
    · rw [if_neg h1] at h
      by_cases h3 : fuzzy q (pyLower m0.full_name) 80 = true
      · rw [if_pos h3] at h
        rcases List.mem_cons.mp h with rfl | h4
        · exact ⟨⟨(k0, m), List.mem_cons_self _ _, rfl⟩,
            fun hc => h1 (Or.inl hc), h3⟩
        · obtain ⟨⟨kv', hkv', hkv2⟩, hrest⟩ := ih _ m h4
          exact ⟨⟨kv', List.mem_cons_of_mem _ hkv', hkv2⟩, hrest⟩
      · rw [if_neg h3] at h
        obtain ⟨⟨kv', hkv', hkv2⟩, hrest⟩ := ih seen m h
        exact ⟨⟨kv', List.mem_cons_of_mem _ hkv', hkv2⟩, hrest⟩

/-- `insertDescQ` never empties a list. -/
theorem insertDescQ_ne_nil (x : ℚ × PyStr) :
    ∀ l : List (ℚ × PyStr), insertDescQ x l ≠ [] := by
  intro l
  cases l with
  | nil => simp [insertDescQ]
  | cons y ys =>
    simp only [insertDescQ]
    by_cases h : y.1 ≤ x.1
    · rw [if_pos h]; simp
    · rw [if_neg h]; simp

/-- Membership through `insertDescQ`. -/
theorem mem_insertDescQ {x y : ℚ × PyStr} :
    ∀ {l : List (ℚ × PyStr)}, y ∈ insertDescQ x l ↔ y = x ∨ y ∈ l := by
  intro l
  induction l with
  | nil => simp [insertDescQ]
  | cons z zs ih =>
    simp only [insertDescQ]
    by_cases h : z.1 ≤ x.1
    · rw [if_pos h]; simp [List.mem_cons]
    · rw [if_neg h]
      simp only [List.mem_cons, ih]
      tauto

/-- The head of the stable descending sort is a member with a maximal key. -/
theorem sortDescQ_head_max :
    ∀ l : List (ℚ × PyStr), l ≠ [] →
      ∃ b t, sortDescQ l = b :: t ∧ b ∈ l ∧ ∀ x ∈ l, x.1 ≤ b.1 := by
  intro l
  induction l with
  | nil => intro h; exact absurd rfl h
  | cons x xs ih =>
    intro _
    cases xs with
    | nil => exact ⟨x, [], rfl, List.mem_cons_self _ _, by simp⟩
    | cons y ys =>
      obtain ⟨b, t, heq, hbmem, hbmax⟩ := ih (by simp)
      rw [show sortDescQ (x :: y :: ys) = insertDescQ x (sortDescQ (y :: ys)) from rfl,
        heq]
      simp only [insertDescQ]
      by_cases h : b.1 ≤ x.1
      · rw [if_pos h]
        refine ⟨x, b :: t, rfl, List.mem_cons_self _ _, ?_⟩
        intro z hz
        rcases List.mem_cons.mp hz with rfl | hz2
        · exact le_refl _
        · exact le_trans (hbmax z hz2) h
      · rw [if_neg h]
        refine ⟨b, insertDescQ x t, rfl, List.mem_cons_of_mem _ hbmem, ?_⟩
        intro z hz
        rcases List.mem_cons.mp hz with rfl | hz2
        · exact le_of_lt (lt_of_not_le h)
        · exact hbmax z hz2

/-- The dropped/kept characterization of `fantasy_outputs`: exactly the
candidates whose points chain is not `None` survive, each paired with its
formatted line. -/
theorem fantasy_outputs_eq (stats : List (PyStr × StatRec)) :
    ∀ cands : List PlayerMeta,
      fantasy_outputs stats cands =
        (cands.filter (fun p => fantasyPts stats p.id ≠ PyVal.none)).map
          (fun p => (pyFloat (fantasyPts stats p.id),
            fantasyLine p (fantasyPts stats p.id))) := by
  intro cands
  induction cands with
  | nil => rfl
  | cons p rest ih =>
    simp only [fantasy_outputs, List.filterMap_cons] at *
    by_cases h : fantasyPts stats p.id = PyVal.none
    · rw [if_pos h]
      rw [List.filter_cons_of_neg (by simpa using h)]
      exact ih
    · rw [if_neg h]
      rw [List.filter_cons_of_pos (by simpa using h)]
      simp only [List.map_cons]
      exact congrArg _ ih

/-! ## Claim theorems -/

/-- C9: for every URL and the default retry count of 3, `safe_fetch_json`
consults the network at most 3 times, its backoff sleeps are an initial
segment of 1s, 2s, 4s (start ≈1s, doubling), it never raises, and when all
three attempts fail it returns the `__error` sentinel dict (built
from the last error) rather than a payload. -/
theorem C9_safe_fetch_retries {α : Type} (oracle : ℕ → Except PyStr α)
    (url : PyStr) :
    (safe_fetch_json oracle url 3).1 ≠ FetchOutcome.unboundLocalError ∧
    (safe_fetch_json oracle url 3).2.attemptsMade.length ≤ 3 ∧
    (safe_fetch_json oracle url 3).2.sleeps <+: [(1 : ℚ), 2, 4] ∧
    ((∀ n, n < 3 → ∀ p, oracle n ≠ .ok p) →
      (safe_fetch_json oracle url 3).1 =
        FetchOutcome.errorDict
          (pystr "Failed to fetch " ++ url ++ pystr ": " ++ errval (oracle 2)) ∧
      (safe_fetch_json oracle url 3).2.sleeps = [1, 2, 4]) := by
  have hgo : safe_fetch_json oracle url 3 =
      safeFetchGo oracle url 3 0 1 Option.none ⟨[], []⟩ := rfl
  rcases ho0 : oracle 0 with e0 | p0
  · rcases ho1 : oracle 1 with e1 | p1
    · rcases ho2 : oracle 2 with e2 | p2
      · rw [hgo]
        simp only [safeFetchGo, ho0, ho1, ho2]
        refine ⟨by simp, by simp, ⟨[], by norm_num⟩, ?_⟩
        intro _
        exact ⟨by simp [errval, ho2], by norm_num⟩
      · rw [hgo]
        simp only [safeFetchGo, ho0, ho1, ho2]
        refine ⟨by simp, by simp, ⟨[4], by norm_num⟩, ?_⟩
        intro h
        exact absurd ho2 (h 2 (by norm_num) p2)
    · rw [hgo]
      simp only [safeFetchGo, ho0, ho1]
      refine ⟨by simp, by simp, ⟨[2, 4], by norm_num⟩, ?_⟩
      intro h
      exact absurd ho1 (h 1 (by norm_num) p1)
  · rw [hgo]
    simp only [safeFetchGo, ho0]
    refine ⟨by simp, by simp, ⟨[1, 2, 4], by norm_num⟩, ?_⟩
    intro h
    exact absurd ho0 (h 0 (by norm_num) p0)

/-- C9 witness: an always-failing oracle exhausts the three attempts and
yields the `__error` sentinel after sleeping 1s, 2s, 4s. -/
theorem C9_witness :
    (safe_fetch_json oracleFail (pystr "u") 3).1 =
      FetchOutcome.errorDict
        (pystr "Failed to fetch " ++ pystr "u" ++ pystr ": " ++
          errval (oracleFail 2)) ∧
    (safe_fetch_json oracleFail (pystr "u") 3).2.sleeps = [1, 2, 4] :=
  (C9_safe_fetch_retries oracleFail (pystr "u")).2.2.2
    (fun _ _ _ h => Except.noConfusion h)

/-- C10: with `retries ≤ 0` the `while attempt < retries` loop body never
runs, no attempt and no sleep happens, `last_err` is never bound, and the
final f-string raises `UnboundLocalError` (a `NameError`) instead of
returning the `__error` sentinel. -/
theorem C10_safe_fetch_nonpositive {α : Type} (oracle : ℕ → Except PyStr α)
    (url : PyStr) (retries : ℤ) (h : retries ≤ 0) :
    safe_fetch_json oracle url retries =
      (FetchOutcome.unboundLocalError, ⟨[], []⟩) := by
  unfold safe_fetch_json
  rw [Int.toNat_eq_zero.mpr h]
  rfl

/-- C10 witness: `retries = 0` with a concrete oracle. -/
theorem C10_witness :
    safe_fetch_json oracleFail (pystr "u") 0 =
      (FetchOutcome.unboundLocalError, ⟨[], []⟩) :=
  C10_safe_fetch_nonpositive oracleFail (pystr "u") 0 (by decide)

/-- C4 (amended): with a non-empty remembered entity, an input whose
lowercased, stripped form contains an intent keyword as a substring is
rewritten to the last entity followed by a space and the lowercased
stripped input (regardless of any
team or player name it may contain); otherwise, an input containing any of
he/him/his/them/they as a substring (not only as a bare word) is rewritten by
removing the substrings "he", "him", "his" and prepending the entity;
otherwise the raw input is returned unchanged.  The two spec instances
hold: `resolve("fantasy stats", "Josh Allen") = "Josh Allen fantasy stats"`,
and `resolve("he", "Josh Allen")` contains "Josh Allen" and no pronoun. -/
theorem C4_amended_context (raw le : PyStr) (hle : le ≠ []) :
    (INTENT_KEYWORDS.any (fun k => pyContains k (pyStrip (pyLower raw))) = true →
      resolve_contextual_query raw (some le) =
        le ++ [' '] ++ pyStrip (pyLower raw)) ∧
    (INTENT_KEYWORDS.any (fun k => pyContains k (pyStrip (pyLower raw))) = false →
      PRONOUNS.any (fun p => pyContains p (pyStrip (pyLower raw))) = true →
      resolve_contextual_query raw (some le) =
        le ++ [' '] ++ pyStrip
          (pyReplace (pyReplace (pyReplace (pyStrip (pyLower raw))
            (pystr "he") []) (pystr "him") []) (pystr "his") [])) ∧
    (INTENT_KEYWORDS.any (fun k => pyContains k (pyStrip (pyLower raw))) = false →
      PRONOUNS.any (fun p => pyContains p (pyStrip (pyLower raw))) = false →
      resolve_contextual_query raw (some le) = raw) ∧
    resolve_contextual_query (pystr "fantasy stats") (some (pystr "Josh Allen")) =
      pystr "Josh Allen fantasy stats" ∧
    pyContains (pystr "Josh Allen")
      (resolve_contextual_query (pystr "he") (some (pystr "Josh Allen"))) = true ∧
    PRONOUNS.all (fun p => !(pyContains p
      (resolve_contextual_query (pystr "he") (some (pystr "Josh Allen"))))) = true := by
  refine ⟨?_, ?_, ?_, by decide, by decide, by decide⟩
  · intro hkw
    simp only [resolve_contextual_query]
    rw [if_neg hle, if_pos hkw]
  · intro hkw hpr
    simp only [resolve_contextual_query]
    rw [if_neg hle, if_neg (by simp [hkw]), if_pos hpr]
  · intro hkw hpr
    simp only [resolve_contextual_query]
    rw [if_neg hle, if_neg (by simp [hkw]), if_neg (by simp [hpr])]

/-- C4 witness: the intent-keyword branch applied at the instance given in
the spec. -/
theorem C4_witness :
    resolve_contextual_query (pystr "fantasy stats") (some (pystr "Josh Allen")) =
      pystr "Josh Allen" ++ [' '] ++ pyStrip (pyLower (pystr "fantasy stats")) :=
  (C4_amended_context (pystr "fantasy stats") (pystr "Josh Allen")
    (by decide)).1 (by decide)

/-- C4 counterexample: "hello" contains no intent keyword and no pronoun
word, yet — because the pronoun test is a substring test that sees "he"
inside "hello" — the resolver rewrites it to "Josh Allen llo" instead of
returning it unchanged, as the otherwise-unchanged rule of the claim requires. -/
theorem C4_counterexample_context :
    resolve_contextual_query (pystr "hello") (some (pystr "Josh Allen")) =
      pystr "Josh Allen llo" ∧
    INTENT_KEYWORDS.any (fun k => pyContains k (pystr "hello")) = false ∧
    (pySplitWs (pystr "hello")).any (fun w => PRONOUNS.contains w) = false ∧
    resolve_contextual_query (pystr "hello") (some (pystr "Josh Allen")) ≠
      pystr "hello" :=
  ⟨by decide, by decide, by decide, by decide⟩

/-- C5: the session slot `last_mentioned` is updated only from an entity
derived from the original raw input (team detection `or` normalized player
query) — never from the rewritten query or the response path (the update is
independent of the dispatcher) — and only when no reserved action word
(fantasy, news, scores, "last game", "next game", stats) occurs in it; in
particular, processing the action phrase "last game" leaves the slot at its
prior value. -/
theorem C5_context_update (respond : PyStr → ProfileResult) (input : PyStr)
    (prior : Option PyStr) :
    ((nfl_chatbot_with_context respond input prior).2 = prior ∨
      (nfl_chatbot_with_context respond input prior).2 =
        some (pyOrS (detect_team_from_query input)
          (normalize_player_query input))) ∧
    (∀ respond', (nfl_chatbot_with_context respond' input prior).2 =
      (nfl_chatbot_with_context respond input prior).2) ∧
    ((nfl_chatbot_with_context respond input prior).2 ≠ prior →
      ACTION_WORDS.all (fun a => !(pyContains a (pyLower
        (pyOrS (detect_team_from_query input)
          (normalize_player_query input))))) = true) ∧
    (∀ prior',
      (nfl_chatbot_with_context respond (pystr "last game") prior').2 = prior') := by
  have hpair : ∀ (r : PyStr → ProfileResult) (inp : PyStr) (pr : Option PyStr),
      (nfl_chatbot_with_context r inp pr).2 =
        (if pyOrS (detect_team_from_query inp) (normalize_player_query inp) ≠ [] ∧
            ¬ ACTION_WORDS.any (fun a => pyContains a
              (pyLower (pyOrS (detect_team_from_query inp)
                (normalize_player_query inp)))) then
          some (pyOrS (detect_team_from_query inp) (normalize_player_query inp))
        else pr) := fun _ _ _ => rfl
  refine ⟨?_, ?_, ?_, ?_⟩
  · rw [hpair]
    by_cases h : pyOrS (detect_team_from_query input) (normalize_player_query input) ≠ [] ∧
        ¬ ACTION_WORDS.any (fun a => pyContains a
          (pyLower (pyOrS (detect_team_from_query input) (normalize_player_query input))))
    · rw [if_pos h]; exact Or.inr rfl
    · rw [if_neg h]; exact Or.inl rfl
  · intro respond'
    rw [hpair, hpair]
  · intro hne
    rw [hpair] at hne
    by_cases h : pyOrS (detect_team_from_query input) (normalize_player_query input) ≠ [] ∧
        ¬ ACTION_WORDS.any (fun a => pyContains a
          (pyLower (pyOrS (detect_team_from_query input) (normalize_player_query input))))
    · have hf : ACTION_WORDS.any (fun a => pyContains a
          (pyLower (pyOrS (detect_team_from_query input)
            (normalize_player_query input)))) = false :=
        Bool.eq_false_iff.mpr h.2
      rw [List.any_eq_false] at hf
      rw [List.all_eq_true]
      intro a ha
      simp [hf a ha]
    · rw [if_neg h] at hne
      exact absurd rfl hne
  · intro prior'
    rw [hpair]
    rw [if_neg (by decide)]

/-- C5 witness: a fresh player name updates the slot (and satisfies the
reserved-word guard); the action phrase "last game" leaves a prior value
untouched. -/
theorem C5_witness :
    ACTION_WORDS.all (fun a => !(pyContains a (pyLower
      (pyOrS (detect_team_from_query (pystr "josh allen"))
        (normalize_player_query (pystr "josh allen")))))) = true ∧
    (nfl_chatbot_with_context respond0 (pystr "last game")
      (some (pystr "Josh Allen"))).2 = some (pystr "Josh Allen") :=
  ⟨(C5_context_update respond0 (pystr "josh allen") Option.none).2.2.1 (by decide),
   (C5_context_update respond0 (pystr "josh allen") Option.none).2.2.2
     (some (pystr "Josh Allen"))⟩

/-- C6 (amended): `chatbot.handle_user_query` — the wired router — checks
standings *before* news, so any input with a standings keyword (and no score
keyword) is dispatched to the standings intent even if it also contains a
news keyword; the duplicate router `NFLChatBot.nfl_chatbot` uses the order
given in the spec and dispatches a news keyword (with no score keyword) to team news
even when a standings keyword is present.  Both hold for every set of
collaborators. -/
theorem C6_amended_router :
    (∀ (deps : ChatDeps) (q : PyStr), q ≠ [] →
      (pyContains (pystr "score") (pyLower (pyStrip q)) ||
        pyContains (pystr "scores") (pyLower (pyStrip q))) = false →
      (pyContains (pystr "standing") (pyLower (pyStrip q)) ||
        pyContains (pystr "rank") (pyLower (pyStrip q)) ||
        pyContains (pystr "record") (pyLower (pyStrip q))) = true →
      handle_user_query deps q = .text (deps.standings (extract_team q))) ∧
    (∀ (deps : NbDeps) (q : PyStr), pyStrip q ≠ [] →
      (pyContains (pystr "score") (pyLower (pyStrip q)) ||
        pyContains (pystr "scores") (pyLower (pyStrip q))) = false →
      (pyContains (pystr "news") (pyLower (pyStrip q)) ||
        pyContains (pystr "article") (pyLower (pyStrip q)) ||
        pyContains (pystr "headline") (pyLower (pyStrip q))) = true →
      nfl_chatbot deps q = deps.team_news (pyOrS (deps.find_team q) (pystr "NFL"))) := by
  constructor
  · intro deps q hq hsc hst
    simp only [handle_user_query]
    rw [if_neg hq, if_neg (by simp [hsc]), if_pos hst]
  · intro deps q hq hsc hnews
    simp only [nfl_chatbot]
    rw [if_neg (by push_neg; exact ⟨fun h => hq (by rw [h]; rfl), hq⟩),
      if_neg (by simp [hsc]), if_pos hnews]

/-- C6 witness: both routers applied to the input "record news", which
contains a standings keyword and a news keyword. -/
theorem C6_witness :
    handle_user_query testChatDeps (pystr "record news") =
      .text (testChatDeps.standings (extract_team (pystr "record news"))) ∧
    nfl_chatbot testNbDeps (pystr "record news") =
      testNbDeps.team_news
        (pyOrS (testNbDeps.find_team (pystr "record news")) (pystr "NFL")) :=
  ⟨C6_amended_router.1 testChatDeps (pystr "record news")
      (by decide) (by decide) (by decide),
   C6_amended_router.2 testNbDeps (pystr "record news")
      (by decide) (by decide) (by decide)⟩

/-- C6 counterexample: the claim says an input with both a news and a
standings keyword goes to the team-news intent; on the wired router
(`chatbot.handle_user_query`) the input "record news" is dispatched to the
standings branch (with "news" extracted as the team!), not to team news. -/
theorem C6_counterexample_router :
    handle_user_query testChatDeps (pystr "record news") =
      .text (pystr "STANDINGS:news") ∧
    ProfileResult.text (pystr "STANDINGS:news") ≠
      .text (pystr "NEWS:news") :=
  ⟨by decide, by decide⟩

/-- C8 (code bug evidence): on the input "Bills standings",
`chatbot.extract_team` takes the *last* word — "standings" — so the wired
router asks `get_standings` for a team named "standings" and the user gets
"No standings found for 'standings'." even though the directory holds a 9-8
Buffalo Bills record; with the team word last ("standings Bills") the same
pipeline returns the Bills record, whose text contains "9-8". -/
theorem C8_bills_standings :
    extract_team (pystr "Bills standings") = pystr "standings" ∧
    handle_user_query standChatDeps (pystr "Bills standings") =
      .text (pystr "No standings found for \x27standings\x27.") ∧
    pyContains (pystr "9-8")
      (get_standings (.ok [billsDivision]) (some (pystr "Bills"))) = true ∧
    handle_user_query standChatDeps (pystr "standings Bills") =
      .text (get_standings (.ok [billsDivision]) (some (pystr "Bills"))) :=
  ⟨by decide, by decide, by decide, by decide⟩

/-- C1 (amended): for a query whose tokens all occur in the lowercased full
name of exactly one record, the `api_client.py` resolver — which deduplicates by id
— returns the single detailed profile of that record; and on the `NFLChatBot.py`
resolver — the copy that honours a position hint — a hint differing from
the position of every record yields the "not found" result.  (The further
assertion of the claim that the position-aware copy returns the SingleMatch profile on a
uniquely-matching name is false: see the counterexample, where the unique
record is listed once per cache key because that copy lacks id
deduplication.) -/
theorem C1_amended_resolver (fuzzy : FuzzyPredicate)
    (cache : List (PyStr × PlayerMeta)) (input : PyStr) (k : PyStr)
    (m : PlayerMeta)
    (hne : pyStrip input ≠ [])
    (htoks : smart_tokens input ≠ [])
    (hid : m.id ≠ [])
    (hmem : (k, m) ∈ cache)
    (hmatch : (smart_tokens input).all
      (fun t => pyContains t (pyLower m.full_name)) = true)
    (honly : ∀ kv ∈ cache, (smart_tokens input).all
      (fun t => pyContains t (pyLower kv.2.full_name)) = true → kv.2 = m)
    (hids : ∀ kv ∈ cache, kv.2.id = m.id → kv.2 = m)
    (input2 P : PyStr)
    (hne2 : pyStrip input2 ≠ [])
    (hP : (nb_profile_nlu input2).1 = some P)
    (htoks2 : (nb_profile_nlu input2).2.2 ≠ [])
    (hPdiff : ∀ kv ∈ cache, pyUpper kv.2.position ≠ P) :
    get_player_profile_smart fuzzy cache input = .text (singleProfileText m) ∧
    nb_get_player_profile_smart cache input2 =
      pystr "Player \x27" ++ input2 ++ pystr "\x27 not found." := by
  constructor
  · have hsingle : (smartPass1 (smart_tokens input) cache []).1 = [m] := by
      apply eq_singleton_of_unique
      · exact smartPass1_complete _ cache [] k m hmem hid hmatch hids (by simp)
      · intro x hx
        obtain ⟨⟨kv', hkv', rfl⟩, -, hxmatch⟩ :=
          smartPass1_sound _ cache [] x hx
        exact honly kv' hkv' hxmatch
      · exact (smartPass1_ids _ cache []).1
    have hinput : input ≠ [] := fun h => hne (by rw [h]; rfl)
    simp only [get_player_profile_smart]
    rw [if_neg (by push_neg; exact ⟨hinput, hne⟩), if_neg htoks, hsingle]
    simp
  · have hnil : cache.filterMap (fun kv =>
        if nb_player_matches_name kv.2 (nb_profile_nlu input2).2.2 &&
           (match (nb_profile_nlu input2).1 with
            | Option.none => true
            | some p => pyUpper kv.2.position = p) &&
           (match (nb_profile_nlu input2).2.1 with
            | Option.none => true
            | some t => nb_player_matches_team kv.2 t)
        then some kv.2 else Option.none) = [] := by
      rw [List.filterMap_eq_nil_iff]
      intro kv hkv
      have hB : decide (pyUpper kv.2.position = P) = false :=
        decide_eq_false (hPdiff kv hkv)
      simp [hP, hB]
    have hinput2 : input2 ≠ [] := fun h => hne2 (by rw [h]; rfl)
    simp only [nb_get_player_profile_smart]
    rw [if_neg (by push_neg; exact ⟨hinput2, hne2⟩), if_neg htoks2, hnil]
    simp

/-- C1 witness: a one-record directory.  "josh allen" resolves to the single
detailed profile on the `api_client.py` copy; "josh allen rb" (hint RB, the
record is a QB) yields not-found on the `NFLChatBot.py` copy. -/
theorem C1_witness :
    get_player_profile_smart noFuzzy cacheJosh (pystr "josh allen") =
      .text (singleProfileText (mkPlayerMeta (pystr "1") joshRec)) ∧
    nb_get_player_profile_smart cacheJosh (pystr "josh allen rb") =
      pystr "Player \x27" ++ pystr "josh allen rb" ++ pystr "\x27 not found." :=
  C1_amended_resolver noFuzzy cacheJosh (pystr "josh allen") (pystr "1")
    (mkPlayerMeta (pystr "1") joshRec)
    (by decide) (by decide) (by decide) (by decide) (by decide) (by decide)
    (by decide) (pystr "josh allen rb") (pystr "RB")
    (by decide) (by decide) (by decide) (by decide)

/-- C1 counterexample: the same one-record directory and the same uniquely
matching query "josh allen", on the position-aware resolver
(`NFLChatBot.get_player_profile_smart`): the output is the multiple-matches
listing — the single record appears once under its id key and once under its
name key and the loop lacks id deduplication — not the claimed SingleMatch
profile. -/
theorem C1_counterexample_nb_resolver :
    nb_get_player_profile_smart cacheJosh (pystr "josh allen") =
      pystr "Multiple players found (be more specific, e.g., include QB or team name):\n- **Josh Allen** (QB — BUF)\n- **Josh Allen** (QB — BUF)" ∧
    (∀ kv ∈ cacheJosh, kv.2 = mkPlayerMeta (pystr "1") joshRec) :=
  ⟨by decide, by decide⟩

/-- C3: with two records sharing a full name but having different ids (so
the name key of the cache was silently overwritten at population time), a query
matching that name yields both records as distinct candidates of the
selection-required (MultipleMatches) result — the resolver deduplicates by
id while scanning all cache entries, so the collided record is not lost. -/
theorem C3_dedup_by_id (fuzzy : FuzzyPredicate)
    (cache : List (PyStr × PlayerMeta)) (input : PyStr)
    (k1 k2 : PyStr) (m1 m2 : PlayerMeta)
    (hne : pyStrip input ≠ [])
    (htoks : smart_tokens input ≠ [])
    (h1 : (k1, m1) ∈ cache) (h2 : (k2, m2) ∈ cache)
    (hid1 : m1.id ≠ []) (hid2 : m2.id ≠ []) (hid12 : m1.id ≠ m2.id)
    (hfull : m1.full_name = m2.full_name)
    (hm1 : (smart_tokens input).all
      (fun t => pyContains t (pyLower m1.full_name)) = true)
    (honly : ∀ kv ∈ cache, (smart_tokens input).all
      (fun t => pyContains t (pyLower kv.2.full_name)) = true →
      kv.2 = m1 ∨ kv.2 = m2)
    (hids1 : ∀ kv ∈ cache, kv.2.id = m1.id → kv.2 = m1)
    (hids2 : ∀ kv ∈ cache, kv.2.id = m2.id → kv.2 = m2) :
    get_player_profile_smart fuzzy cache input =
      .selectionRequired ((smartPass1 (smart_tokens input) cache []).1.take 5) ∧
    m1 ∈ (smartPass1 (smart_tokens input) cache []).1.take 5 ∧
    m2 ∈ (smartPass1 (smart_tokens input) cache []).1.take 5 ∧
    m1 ≠ m2 := by
  have hm2 : (smart_tokens input).all
      (fun t => pyContains t (pyLower m2.full_name)) = true := by
    rw [← hfull]; exact hm1
  have hmem1 : m1 ∈ (smartPass1 (smart_tokens input) cache []).1 :=
    smartPass1_complete _ cache [] k1 m1 h1 hid1 hm1 hids1 (by simp)
  have hmem2 : m2 ∈ (smartPass1 (smart_tokens input) cache []).1 :=
    smartPass1_complete _ cache [] k2 m2 h2 hid2 hm2 hids2 (by simp)
  have hall : ∀ x ∈ (smartPass1 (smart_tokens input) cache []).1,
      x = m1 ∨ x = m2 := by
    intro x hx
    obtain ⟨⟨kv', hkv', rfl⟩, -, hxm⟩ := smartPass1_sound _ cache [] x hx
    exact honly kv' hkv' hxm
  have hnodup := (smartPass1_ids (smart_tokens input) cache []).1
  have hlen2 : (smartPass1 (smart_tokens input) cache []).1.length ≤ 2 :=
    length_le_two_of_ids hall hnodup
  have htake : (smartPass1 (smart_tokens input) cache []).1.take 5 =
      (smartPass1 (smart_tokens input) cache []).1 :=
    List.take_of_length_le (le_trans hlen2 (by norm_num))
  have hne12 : m1 ≠ m2 := fun h => hid12 (congrArg PlayerMeta.id h)
  have hgt : 1 < (smartPass1 (smart_tokens input) cache []).1.length :=
    one_lt_length_of_two hmem1 hmem2 hne12
  have houtne : (smartPass1 (smart_tokens input) cache []).1 ≠ [] := by
    intro h; rw [h] at hmem1; simp at hmem1
  refine ⟨?_, by rw [htake]; exact hmem1, by rw [htake]; exact hmem2, hne12⟩
  have hinput : input ≠ [] := fun h => hne (by rw [h]; rfl)
  simp only [get_player_profile_smart]
  rw [if_neg (by push_neg; exact ⟨hinput, hne⟩), if_neg htoks,
    if_neg houtne, if_neg houtne, if_pos hgt]

/-- C3 witness: the directory built from two Sleeper records that both carry
the full name "Josh Allen" under different ids; the query "josh allen"
surfaces both as distinct candidates. -/
theorem C3_witness :
    get_player_profile_smart noFuzzy cacheDup (pystr "josh allen") =
      .selectionRequired
        ((smartPass1 (smart_tokens (pystr "josh allen")) cacheDup []).1.take 5) ∧
    mkPlayerMeta (pystr "1") joshRec ∈
      (smartPass1 (smart_tokens (pystr "josh allen")) cacheDup []).1.take 5 ∧
    mkPlayerMeta (pystr "9") joshRec2 ∈
      (smartPass1 (smart_tokens (pystr "josh allen")) cacheDup []).1.take 5 ∧
    mkPlayerMeta (pystr "1") joshRec ≠ mkPlayerMeta (pystr "9") joshRec2 :=
  C3_dedup_by_id noFuzzy cacheDup (pystr "josh allen") (pystr "1") (pystr "9")
    (mkPlayerMeta (pystr "1") joshRec) (mkPlayerMeta (pystr "9") joshRec2)
    (by decide) (by decide) (by decide) (by decide) (by decide) (by decide)
    (by decide) (by decide) (by decide) (by decide) (by decide) (by decide)

/-- Concrete evaluation shared with the fantasy claim: Josh Allen (30.1)
outranks Keenan Allen (12.4) and only his line is returned. -/
theorem fantasy_fixture_eval :
    get_fantasy_player_stats noFuzzy cacheAllens (.ok statsAllens)
      (pystr "allen") = pystr "Josh Allen (QB, BUF): **30.1 PPR**" := by decide

/-- C2 (amended): on the wired variant (`api_client.get_fantasy_player_stats`)
every candidate has a fantasy-relevant position (QB, RB, WR or TE); the
outputs are exactly
the candidates whose points chain parses (is not `None`), paired with their
formatted lines; and when any output survives, the returned string is the
line of an output with maximal points (the head of the stable descending
sort) — in particular, with candidates at 12.4 and 30.1 points, exactly the
30.1 line is returned.  (The `NFLChatBot.py` duplicate instead returns up to
five alphabetically sorted lines with no position whitelist and no dropping —
see the counterexample.) -/
theorem C2_amended_fantasy (fuzzy : FuzzyPredicate)
    (cache : List (PyStr × PlayerMeta)) (stats : List (PyStr × StatRec))
    (query q : PyStr) (toks : List PyStr)
    (hq : query ≠ [])
    (hqe : q = normalize_player_query query)
    (hte : toks = pySplitWs q)
    (htoks : toks ≠ []) :
    (∀ c ∈ fantasy_candidates fuzzy cache q toks,
      VALID_POSITIONS.contains (pyUpper c.position) = true) ∧
    fantasy_outputs stats (fantasy_candidates fuzzy cache q toks) =
      ((fantasy_candidates fuzzy cache q toks).filter
        (fun p => fantasyPts stats p.id ≠ PyVal.none)).map
        (fun p => (pyFloat (fantasyPts stats p.id),
          fantasyLine p (fantasyPts stats p.id))) ∧
    (fantasy_outputs stats (fantasy_candidates fuzzy cache q toks) ≠ [] →
      get_fantasy_player_stats fuzzy cache (.ok stats) query =
        ((sortDescQ (fantasy_outputs stats
          (fantasy_candidates fuzzy cache q toks))).headD (0, [])).2 ∧
      ((sortDescQ (fantasy_outputs stats
          (fantasy_candidates fuzzy cache q toks))).headD (0, [])) ∈
        fantasy_outputs stats (fantasy_candidates fuzzy cache q toks) ∧
      ∀ x ∈ fantasy_outputs stats (fantasy_candidates fuzzy cache q toks),
        x.1 ≤ ((sortDescQ (fantasy_outputs stats
          (fantasy_candidates fuzzy cache q toks))).headD (0, [])).1) ∧
    get_fantasy_player_stats noFuzzy cacheAllens (.ok statsAllens)
      (pystr "allen") = pystr "Josh Allen (QB, BUF): **30.1 PPR**" := by
  refine ⟨?_, fantasy_outputs_eq stats _, ?_, fantasy_fixture_eval⟩
  · intro c hc
    rcases mem_pyOrList hc with hc1 | hc2
    · exact (fantasyPass1_sound _ _ cache [] c (Or.inl hc1)).2.2
    · rcases mem_pyOrList hc2 with hc3 | hc4
      · exact (fantasyPass1_sound _ _ cache [] c (Or.inr hc3)).2.2
      · by_cases hcond : (fantasyPass1 q toks cache []).1 = [] ∧
            (fantasyPass1 q toks cache []).2.1 = []
        · rw [if_pos hcond] at hc4
          exact (fantasyPass2_sound fuzzy _ cache _ c hc4).2.2.1
        · rw [if_neg hcond] at hc4
          simp at hc4
  · intro houtne
    obtain ⟨b, t, heq, hbmem, hbmax⟩ := sortDescQ_head_max _ houtne
    have hheadD : (sortDescQ (fantasy_outputs stats
        (fantasy_candidates fuzzy cache q toks))).headD (0, []) = b := by
      rw [heq]; rfl
    have hcand : fantasy_candidates fuzzy cache q toks ≠ [] := by
      intro h
      apply houtne
      rw [h]
      rfl
    refine ⟨?_, by rw [hheadD]; exact hbmem, by rw [hheadD]; exact hbmax⟩
    simp only [get_fantasy_player_stats]
    rw [← hqe, ← hte]
    rw [if_neg hq, if_neg htoks, if_neg hcand, if_neg houtne]

/-- C2 witness: the fixture with Josh Allen at 30.1 and Keenan Allen at
12.4 points, instantiating the max-selection conclusion. -/
theorem C2_witness :
    get_fantasy_player_stats noFuzzy cacheAllens (.ok statsAllens)
      (pystr "allen") =
      ((sortDescQ (fantasy_outputs statsAllens
        (fantasy_candidates noFuzzy cacheAllens
          (normalize_player_query (pystr "allen"))
          (pySplitWs (normalize_player_query (pystr "allen")))))).headD
            (0, [])).2 :=
  ((C2_amended_fantasy noFuzzy cacheAllens statsAllens (pystr "allen")
      (normalize_player_query (pystr "allen"))
      (pySplitWs (normalize_player_query (pystr "allen")))
      (by decide) rfl rfl (by decide)).2.2.1 (by decide)).1

set_option maxRecDepth 8192 in
/-- C2 counterexample: the `NFLChatBot.py` copy of
`get_fantasy_player_stats` (also cited by the claim) does not return only the
highest-points candidate: on the same two matching candidates it returns four
alphabetically sorted lines — including the 12.4 entry and two unparsed
"N/A" entries produced by looking the *name* keys of the cache up in the
id-keyed stats feed. -/
theorem C2_counterexample_nb_fantasy :
    nb_get_fantasy_player_stats cacheAllens (.ok statsAllens) (pystr "allen") =
      pystr "Josh Allen (QB, BUF): **30.1 PPR**\nJosh Allen (QB, BUF): **N/A PPR**\nKeenan Allen (WR, LAC): **12.4 PPR**\nKeenan Allen (WR, LAC): **N/A PPR**" ∧
    pyContains (pystr "12.4")
      (nb_get_fantasy_player_stats cacheAllens (.ok statsAllens)
        (pystr "allen")) = true ∧
    nb_get_fantasy_player_stats cacheAllens (.ok statsAllens) (pystr "allen") ≠
      pystr "Josh Allen (QB, BUF): **30.1 PPR**" :=
  ⟨by decide, by decide, by decide⟩

/-- C7: the fuzzy fallback (Pass 2) runs only when the strict Pass 1 yields
zero candidates — when Pass 1 is non-empty the resolver result does not
depend on the fuzzy predicate at all, for both the profile and the fantasy
lookup — and every Pass 2 candidate passed the `is_fuzzy_match(q, full,
threshold=80)` test of the joined-token query string against its lowercased
full name, with the fantasy variant additionally applying the same position
filter as its Pass 1. -/
theorem C7_fuzzy_fallback_gate :
    (∀ (f f' : FuzzyPredicate) (cache : List (PyStr × PlayerMeta))
       (input : PyStr),
      (smartPass1 (smart_tokens input) cache []).1 ≠ [] →
      get_player_profile_smart f cache input =
        get_player_profile_smart f' cache input) ∧
    (∀ (f : FuzzyPredicate) (q : PyStr) (cache : List (PyStr × PlayerMeta))
       (seen : List PyStr) (m : PlayerMeta),
      m ∈ smartPass2 f q cache seen → f q (pyLower m.full_name) 80 = true) ∧
    (∀ (f f' : FuzzyPredicate) (cache : List (PyStr × PlayerMeta))
       (stats : Except PyStr (List (PyStr × StatRec))) (query : PyStr),
      ((fantasyPass1 (normalize_player_query query)
          (pySplitWs (normalize_player_query query)) cache []).1 ≠ [] ∨
       (fantasyPass1 (normalize_player_query query)
          (pySplitWs (normalize_player_query query)) cache []).2.1 ≠ []) →
      get_fantasy_player_stats f cache stats query =
        get_fantasy_player_stats f' cache stats query) ∧
    (∀ (f : FuzzyPredicate) (q : PyStr) (cache : List (PyStr × PlayerMeta))
       (seen : List PyStr) (m : PlayerMeta),
      m ∈ fantasyPass2 f q cache seen →
        f q (pyLower m.full_name) 80 = true ∧
        VALID_POSITIONS.contains (pyUpper m.position) = true) := by
  refine ⟨?_, ?_, ?_, ?_⟩
  · intro f f' cache input h
    simp only [get_player_profile_smart]
    repeat rw [if_neg h]
  · intro f q cache seen m hm
    exact (smartPass2_sound f q cache seen m hm).2.2
  · intro f f' cache stats query h
    have hcond : ¬ ((fantasyPass1 (normalize_player_query query)
        (pySplitWs (normalize_player_query query)) cache []).1 = [] ∧
        (fantasyPass1 (normalize_player_query query)
          (pySplitWs (normalize_player_query query)) cache []).2.1 = []) := by
      rcases h with h | h
      · exact fun hc => h hc.1
      · exact fun hc => h hc.2
    have hcand_eq : fantasy_candidates f cache (normalize_player_query query)
        (pySplitWs (normalize_player_query query)) =
        fantasy_candidates f' cache (normalize_player_query query)
          (pySplitWs (normalize_player_query query)) := by
      simp only [fantasy_candidates]
      repeat rw [if_neg hcond]
    simp only [get_fantasy_player_stats]
    rw [hcand_eq]
  · intro f q cache seen m hm
    have hs := fantasyPass2_sound f q cache seen m hm
    exact ⟨hs.2.2.2, hs.2.2.1⟩

/-- C7 witness: a predicate that never matches and one that always matches
give the same answers once Pass 1 has found candidates. -/
theorem C7_witness :
    get_player_profile_smart noFuzzy cacheJosh (pystr "josh allen") =
      get_player_profile_smart allFuzzy cacheJosh (pystr "josh allen") ∧
    get_fantasy_player_stats noFuzzy cacheAllens (.ok statsAllens)
        (pystr "allen") =
      get_fantasy_player_stats allFuzzy cacheAllens (.ok statsAllens)
        (pystr "allen") :=
  ⟨C7_fuzzy_fallback_gate.1 noFuzzy allFuzzy cacheJosh (pystr "josh allen")
      (by decide),
   C7_fuzzy_fallback_gate.2.2.1 noFuzzy allFuzzy cacheAllens (.ok statsAllens)
      (pystr "allen") (Or.inr (by decide))⟩
